import Mathlib

/-!
Verification development for the hydrate Modified-van-der-Waals-Platteeuw
equation of state (h_vdwpm_eos.py).

The Python source is shallowly embedded: floating-point numbers are
idealised as real numbers, numpy arrays as lists of reals, and the
`scipy.integrate.quad` numerical integrator as the mathematical interval
integral of the translated integrand.  Where a claim hinges on IEEE
non-finite values (the convergence measure divides by possibly-zero
langmuir constants, and `while nan > tol` exits a Python loop), the
measure is computed in an explicit extended-value type `NVal` carrying
`fin`/`inf`/`nan`, mirroring numpy float semantics.  Python dynamic
typing relevant to the claims (plain float vs numpy scalar vs numpy
array, and which of them have a `.copy()` method) is modelled by the
`PyVal` type, and Python exceptions by the `PyErr` type.  The unbounded
`while` loops of the source are embedded with an explicit fuel
parameter: a result `none` means the loop has not exited within `fuel`
iterations (the source has no iteration bound of its own).
-/

noncomputable section

open scoped Classical

/-- Python exception kinds that the embedded code can raise. -/
inductive PyErr where
  | runtimeError
  | nameError
  | indexError
  | attributeError
  | typeError
deriving DecidableEq, Repr

/-- Dynamic Python values relevant to the claims: a plain int, a plain
float, a numpy scalar and a numpy array.  Plain ints and floats have no
`.copy()` method; numpy scalars and arrays do. -/
inductive PyVal where
  | pint (n : ℤ)
  | pfloat (x : ℝ)
  | npfloat (x : ℝ)
  | nparr (xs : List ℝ)

/-- Calling `.copy()` on a value: numpy scalars and arrays support it,
plain Python ints and floats raise AttributeError. -/
def PyVal.copy : PyVal → Except PyErr PyVal
  | .pint _ => .error .attributeError
  | .pfloat _ => .error .attributeError
  | .npfloat x => .ok (.npfloat x)
  | .nparr xs => .ok (.nparr xs)

/-- Numeric value of a scalar `PyVal` (arrays yield a junk 0; the code
never uses an array where a scalar is expected on the modelled paths). -/
def PyVal.toR : PyVal → ℝ
  | .pint n => (n : ℝ)
  | .pfloat x => x
  | .npfloat x => x
  | .nparr _ => 0

/-- List stored in an array `PyVal` (non-arrays yield a junk `[]`). -/
def PyVal.toList : PyVal → List ℝ
  | .nparr xs => xs
  | _ => []

/-- Extended float values for the convergence measure: a finite real,
positive infinity, or NaN, with numpy float semantics for the operations
the loops perform on the measure. -/
inductive NVal where
  | fin (x : ℝ)
  | inf
  | nan

/-- numpy float division `num / den` where `num` is an absolute value:
`0/0` is NaN, `pos/0` is `inf`, otherwise finite. -/
def nvDivAbs (num den : ℝ) : NVal :=
  if den = 0 then (if num = 0 then .nan else .inf) else .fin (num / den)

/-- numpy float addition on the extended values (no `-inf` ever arises
from the code's terms, so `inf + inf = inf` suffices). -/
def nvAdd : NVal → NVal → NVal
  | .nan, _ => .nan
  | _, .nan => .nan
  | .inf, _ => .inf
  | _, .inf => .inf
  | .fin a, .fin b => .fin (a + b)

/-- The Python comparison `error > TOL` on the extended measure:
`inf > t` is true and `nan > t` is false (so a NaN measure exits a
`while error > TOL` loop). -/
def nvGT : NVal → ℝ → Prop
  | .fin a, t => t < a
  | .inf, _ => True
  | .nan, _ => False

/-- Whether the measure is an (IEEE-finite) real number. -/
def NVal.isFin : NVal → Prop
  | .fin _ => True
  | _ => False

-- Constants from the top of h_vdwpm_eos.py.
/-- Universal gas constant (named `R` in the source). -/
def Rc : ℝ := 8.3144621
/-- Reference temperature `T_0`. -/
def T0c : ℝ := 298.15
/-- Reference pressure `P_0`. -/
def P0c : ℝ := 1.0
/-- Boltzmann constant (named `k` in the source). -/
def kBc : ℝ := 1.3806488e-23

-- Heat-capacity coefficients `HvdwpmEos.cp`.
def cp_a0 : ℝ := 0.735409713 * Rc
def cp_a1 : ℝ := 1.4180551e-2 * Rc
def cp_a2 : ℝ := -1.72746e-5 * Rc
def cp_a3 : ℝ := 63.5104e-9 * Rc

/-- Kihara potential parameters `comp.HvdWPM['kih']`.
Modelled from the spec: the `Component` records come from the external
`component_properties.py`, which is not under src/; the spec specifies
them as read-only records with name, diameter, Kihara parameters,
per-structure compressibility and repulsion factors, standard-state
fugacity, and a pure ideal-gas Gibbs function. -/
structure Kih where
  epsk : ℝ
  sig : ℝ
  a : ℝ

/-- Per-structure component parameters `comp.HvdWPM[hydstruc]`. -/
structure CompStruc where
  kappa : ℝ
  rep_small : ℝ
  rep_large : ℝ

/-- Modelled from the spec: a read-only component record from the
external `component_properties.py` (name-based identity, constant
Kihara/diameter/compressibility/repulsion parameters, a pure ideal-gas
Gibbs energy function, and a constant standard-state fugacity). -/
structure Component where
  compname : String
  diam : ℝ
  stdst_fug : ℝ
  kih : Kih
  hvdwpmS1 : CompStruc
  hvdwpmS2 : CompStruc
  hvdwpmSH : CompStruc
  gibbs_ideal : ℝ → ℝ → ℝ

def compDefault : Component :=
  ⟨"", 0, 0, ⟨0, 0, 0⟩, ⟨0, 0, 0⟩, ⟨0, 0, 0⟩, ⟨0, 0, 0⟩, fun _ _ => 0⟩

instance : Inhabited Component := ⟨compDefault⟩

/-- `comp.HvdWPM[self.Hs.hydstruc]` lookup. -/
def Component.hvdwpmAt (c : Component) (tag : String) : CompStruc :=
  if tag = "s1" then c.hvdwpmS1 else if tag = "s2" then c.hvdwpmS2 else c.hvdwpmSH

/-- Flattened structure-constant table: the fields of
`HydrateStructure` together with the entries of its
`eos['hvdwpm']` dictionary that `HydrateEos.__init__` copies onto the
structure object (`setattr` loop), plus the shell radii/coordination
lists `R`/`z` flattened into lists in shell order. -/
structure HsTable where
  hydstruc : String
  v0 : ℝ
  kappa : ℝ
  a0_ast : ℝ
  gw_0beta : ℝ
  hw_0beta : ℝ
  a_fit : ℝ
  b_fit : ℝ
  alf1 : ℝ
  alf2 : ℝ
  alf3 : ℝ
  a_norm : ℝ
  Rsm : List ℝ
  Rlg : List ℝ
  zsm : List ℝ
  zlg : List ℝ
  NmSmall : ℝ
  NmLarge : ℝ
  etamSmall : ℝ
  etamLarge : ℝ
  Num_h2o : ℝ

/-- Structure-s1 constants from `HydrateStructure.__init__`. -/
def hs_s1 : HsTable :=
  { hydstruc := "s1", v0 := 22.7712, kappa := 3e-5, a0_ast := 11.99245,
    gw_0beta := -235537.85, hw_0beta := -291758.77,
    a_fit := 25.74, b_fit := -481.32,
    alf1 := 3.38496e-4, alf2 := 5.40099e-7, alf3 := -4.76946e-11,
    a_norm := 12.03,
    Rsm := [3.83, 3.96], Rlg := [4.47, 4.06, 4.645, 4.25],
    zsm := [8, 12], zlg := [8, 8, 4, 4],
    NmSmall := 2, NmLarge := 6, etamSmall := 20, etamLarge := 24,
    Num_h2o := 46 }

/-- Structure-s2 constants from `HydrateStructure.__init__`. -/
def hs_s2 : HsTable :=
  { hydstruc := "s2", v0 := 22.9456, kappa := 3e-6, a0_ast := 17.10000,
    gw_0beta := -235627.53, hw_0beta := -292044.10,
    a_fit := 260, b_fit := -68.64,
    alf1 := 2.029776e-4, alf2 := 1.851168e-7, alf3 := -1.879455e-10,
    a_norm := 17.1,
    Rsm := [3.748, 3.845, 3.956], Rlg := [4.729, 4.715, 4.635],
    zsm := [2, 6, 12], zlg := [4, 12, 12],
    NmSmall := 16, NmLarge := 8, etamSmall := 20, etamLarge := 28,
    Num_h2o := 136 }

/-- Structure-sH constants from `HydrateStructure.__init__` (its `eos`
dictionary has no `a_norm`, `R` or `z` keys; those fields are junk
placeholders here — the HvdwpmEos constructor would fail on sH, which no
claim exercises). -/
def hs_sH : HsTable :=
  { hydstruc := "sH", v0 := 24.2126, kappa := 3e-7, a0_ast := 11.09826,
    gw_0beta := -2355491.02, hw_0beta := -291979.26,
    a_fit := 0, b_fit := 0,
    alf1 := 3.575490e-4, alf2 := 6.294390e-7, alf3 := 0,
    a_norm := 0, Rsm := [], Rlg := [], zsm := [], zlg := [],
    NmSmall := 3, NmLarge := 1, etamSmall := 20, etamLarge := 36,
    Num_h2o := 46 }

def structTable (tag : String) : HsTable :=
  if tag = "s1" then hs_s1 else if tag = "s2" then hs_s2 else hs_sH

/-- A Python value used as the structure identifier: a string or an int
(the alias menu mixes both). -/
inductive PyId where
  | s (v : String)
  | i (n : Int)

/-- Python's `str(hyd_type)`. -/
def pyIdStr : PyId → String
  | .s v => v
  | .i n => toString n

/-- Python's `str.lower()` (ASCII lowering, which covers every
identifier the alias menu can match). -/
def pyLower (s : String) : String := String.mk (s.data.map Char.toLower)

/-- `HydrateStructure.__init__` structure resolution:
`str(hyd_type).lower()` is matched against the alias tuples of the
`menu` attribute.  The int entries `1`/`2` of the tuples can never equal
a string, so membership reduces to the string aliases.  On no match the
source executes `raise RuntimeError(hyd_type + "...")`: for a string
identifier this raises RuntimeError, but for an int identifier the
`int + str` concatenation itself raises TypeError. -/
def hydStrucResolve (h : PyId) : Except PyErr String :=
  let t := pyLower (pyIdStr h)
  if t ∈ ["s1", "1", "si", "i", "one"] then .ok "s1"
  else if t ∈ ["s2", "2", "sii", "ii", "two"] then .ok "s2"
  else if t ∈ ["sh", "h"] then .ok "sH"
  else match h with
    | .s _ => .error .runtimeError
    | .i _ => .error .typeError

/-- Index of the first component named `'h2o'`. -/
def waterIdxAux : List Component → Nat → Option Nat
  | [], _ => none
  | c :: cs, i => if c.compname = "h2o" then some i else waterIdxAux cs (i + 1)

/-- `HydrateEos.__init__` water lookup:
`[ii for ii, x in enumerate(comps) if x.compname == 'h2o'][0]` inside a
`try/except ValueError`.  When no component is named `'h2o'` the list is
empty and the `[0]` subscript raises IndexError; `except ValueError`
does not catch IndexError, so the IndexError propagates instead of the
intended RuntimeError. -/
def waterIndex (comps : List Component) : Except PyErr Nat :=
  match waterIdxAux comps 0 with
  | some i => .ok i
  | none => .error .indexError

/-- Mutable instance state of an `HvdwpmEos` object (the attributes the
modelled methods read or write). -/
structure EosState where
  comps : List Component
  water_ind : Nat
  T : ℝ
  P : ℝ
  Hs : HsTable
  eq_fug : List ℝ
  fug : PyVal
  Y_small : List ℝ
  Y_large : List ℝ
  Y_small_0 : List ℝ
  Y_large_0 : List ℝ
  gw0_RT : ℝ
  gwbeta_RT : ℝ
  lattice_Tfactor : ℝ
  vol_Tfactor : ℝ
  a0_cubed : ℝ
  kappa0 : PyVal
  kappa_tmp : PyVal
  kappa_vec : List ℝ
  rep_sm_vec : List ℝ
  rep_lg_vec : List ℝ
  D_vec : List ℝ
  stdstate_fug : List ℝ
  a_0 : ℝ
  v_H_0 : ℝ
  v_H : ℝ
  a_new : ℝ
  C_small : Option (List ℝ)
  C_large : Option (List ℝ)

/-- `HvdwpmEos.Hydrate_size`: `linear = true` means `dim='linear'`
(factor 1/3), otherwise the volumetric factor 1. -/
def Hydrate_size (hs : HsTable) (T P v kappa : ℝ) (linear : Bool) : ℝ :=
  let factor : ℝ := if linear then 1 / 3 else 1
  v * Real.exp (factor * (hs.alf1 * (T - T0c) + hs.alf2 * (T - T0c) ^ 2
      + hs.alf3 * (T - T0c) ^ 3 - kappa * (P - P0c)))

/-- `HvdwpmEos.Hvol_Pint`. -/
def Hvol_Pint (hs : HsTable) (T P v kappa : ℝ) : ℝ :=
  Hydrate_size hs T P v kappa false / (-kappa)

/-- `HvdwpmEos.lattice_to_volume`. -/
def lattice_to_volume (hs : HsTable) (lattice_sz : ℝ) : ℝ :=
  if hs.hydstruc ≠ "sH" then 6.0221413e23 / hs.Num_h2o / 1e24 * lattice_sz ^ 3
  else hs.v0

/-- `HydrateEos.calc_langmuir` body with the denominator precomputed
(the Python loop divides every component's `C[ii]*eq_fug[ii]` by the one
denominator `1 + np.sum(C * eq_fug)`). -/
def calc_langmuirAux (denom : ℝ) : List Component → List ℝ → List ℝ → List ℝ
  | c :: cs, a :: as', b :: bs =>
      (if c.compname = "h2o" then 0 else a * b / denom)
        :: calc_langmuirAux denom cs as' bs
  | _, _, _ => []

/-- `HydrateEos.calc_langmuir`: fractional cage occupancies from
langmuir constants `C` and fugacities `eq_fug`. -/
def calc_langmuir (comps : List Component) (C eq_fug : List ℝ) : List ℝ :=
  calc_langmuirAux (1 + (List.zipWith (· * ·) C eq_fug).sum) comps C eq_fug

/-- `HvdwpmEos.delta_func`. -/
def delta_func (N : ℕ) (Rn aj r : ℝ) : ℝ :=
  ((1 - r / Rn - aj / Rn) ^ (-(N : ℤ)) - (1 + r / Rn - aj / Rn) ^ (-(N : ℤ))) / (N : ℝ)

/-- `HvdwpmEos.w_func`. -/
def w_func (zn eps_k r Rn sigma aj : ℝ) : ℝ :=
  2 * zn * eps_k * (sigma ^ 12 / (Rn ^ 11 * r)
      * (delta_func 10 Rn aj r + aj / Rn * delta_func 11 Rn aj r)
    - sigma ^ 6 / (Rn ^ 5 * r)
      * (delta_func 4 Rn aj r + aj / Rn * delta_func 5 Rn aj r))

/-- `HvdwpmEos.integrand`: `r² · exp((−1/T) · Σ_i w(z_i, …, R_i, …))`. -/
def integrand (r : ℝ) (Rl zl : List ℝ) (eps_k sigma aj T : ℝ) : ℝ :=
  r ^ 2 * Real.exp ((-1 / T)
    * (List.zipWith (fun Ri zi => w_func zi eps_k r Ri sigma aj) Rl zl).sum)

/-- `scipy.integrate.quad(f, a, b)` modelled as the mathematical
interval integral of the translated integrand. -/
def quadI (f : ℝ → ℝ) (a b : ℝ) : ℝ := ∫ r in a..b, f r

/-- Python `min` over a numpy array (nonempty on all modelled paths). -/
def listMin : List ℝ → ℝ
  | [] => 0
  | x :: xs => xs.foldl min x

/-- `C_const = 1e-10**3 * 4 * np.pi / (k*T) * 1e5`. -/
def CconstF (T : ℝ) : ℝ := 1e-10 ^ 3 * 4 * Real.pi / (kBc * T) * 1e5

/-- Result of `HvdwpmEos.langmuir_consts`, with the quadrature
invocations recorded as the list of (lower, upper) bounds passed to
`quad` (effects-as-data; the source invokes `quad` for every non-water
component with no guard on the sign of the upper bound). -/
structure LCRes where
  Cs : List ℝ
  Cl : List ℝ
  calls : List (ℝ × ℝ)

/-- One guest's two quadratures in `langmuir_consts`: integration from 0
to `min(R) - comp.HvdWPM['kih']['a']` for each cage type. -/
def lcGuest (Rsm Rlg zsm zlg : List ℝ) (Cc T : ℝ) (c : Component) :
    (ℝ × ℝ) × List (ℝ × ℝ) :=
  let ubs := listMin Rsm - c.kih.a
  let ubl := listMin Rlg - c.kih.a
  ((Cc * quadI (fun r => integrand r Rsm zsm c.kih.epsk c.kih.sig c.kih.a T) 0 ubs,
    Cc * quadI (fun r => integrand r Rlg zlg c.kih.epsk c.kih.sig c.kih.a T) 0 ubl),
   [(0, ubs), (0, ubl)])

/-- Per-component loop of `HvdwpmEos.langmuir_consts`: water gets the
constant 0 with no quadrature; every other component gets
`C_const * quad(...)` for both cage types. -/
def langmuir_constsAux (Rsm Rlg zsm zlg : List ℝ) (Cc T : ℝ) :
    List Component → LCRes
  | [] => ⟨[], [], []⟩
  | c :: cs =>
    let rest := langmuir_constsAux Rsm Rlg zsm zlg Cc T cs
    if c.compname = "h2o" then ⟨0 :: rest.Cs, 0 :: rest.Cl, rest.calls⟩
    else
      let g := lcGuest Rsm Rlg zsm zlg Cc T c
      ⟨g.1.1 :: rest.Cs, g.1.2 :: rest.Cl, g.2 ++ rest.calls⟩

/-- `HvdwpmEos.compute_integral_constants`: shell radii scaled by
`a_factor = (lattice_sz/a_norm) * lattice_Tfactor * Pfactor` with
`Pfactor = Hydrate_size(T_0, P, 1.0, kappa, 'linear')`.  (The source
stores the scaled radii in `self.R_sm`/`self.R_lg`; they are consumed
only by `langmuir_consts`, so the assignment is inlined there.) -/
def compute_integral_constants (s : EosState) (P lattice_sz kappa : ℝ) :
    List ℝ × List ℝ :=
  let Pfactor := Hydrate_size s.Hs T0c P 1 kappa true
  let a_factor := lattice_sz / s.Hs.a_norm * s.lattice_Tfactor * Pfactor
  (s.Hs.Rsm.map (· * a_factor), s.Hs.Rlg.map (· * a_factor))

/-- `HvdwpmEos.langmuir_consts`. -/
def langmuir_consts (s : EosState) (T P lattice_sz : ℝ) (kappa : PyVal) : LCRes :=
  let RR := compute_integral_constants s P lattice_sz kappa.toR
  langmuir_constsAux RR.1 RR.2 s.Hs.zsm s.Hs.zlg (CconstF T) T s.comps

/-- `HvdwpmEos.iterate_function`: langmuir constants then occupancies
for both cage types. -/
def iterate_function (s : EosState) (T P : ℝ) (fug : List ℝ)
    (lattice_sz : ℝ) (kappa : PyVal) : List ℝ × List ℝ × List ℝ × List ℝ :=
  let lc := langmuir_consts s T P lattice_sz kappa
  (lc.Cs, lc.Cl, calc_langmuir s.comps lc.Cs fug, calc_langmuir s.comps lc.Cl fug)

/-- `HvdwpmEos.kappa_func`: weighted sum for more than two components,
otherwise the instance's `kappa0` (a plain float taken from the
structure table) unchanged. -/
def kappa_func (s : EosState) (Y_large : List ℝ) : PyVal :=
  if 2 < s.comps.length then
    .npfloat (3.0 * (List.zipWith (· * ·) s.kappa_vec Y_large).sum)
  else s.kappa0

/-- `HvdwpmEos.cage_distortion`, returning the repulsive small/large
vectors (evaluated at `Y_small_0`/`Y_large_0`). -/
def cage_distortion (s : EosState) : List ℝ × List ℝ :=
  let ratS := s.Hs.etamSmall / s.Hs.Num_h2o
  let small_const := s.Y_small_0.map (fun y => (1 + ratS) * y / (1 + ratS * y))
  let repulsive_small :=
    if 2 < s.comps.length then
      List.zipWith
        (fun sc d => sc * Real.exp (d - (List.zipWith (· * ·) s.Y_small_0 s.D_vec).sum))
        small_const s.D_vec
    else small_const
  let ratL := s.Hs.etamLarge / s.Hs.Num_h2o
  let repulsive_large := s.Y_large_0.map (fun y => (1 + ratL) * y / (1 + ratL * y))
  (repulsive_small, repulsive_large)

/-- `HvdwpmEos.filled_lattice_size`. -/
def filled_lattice_size (s : EosState) : ℝ :=
  let rr := cage_distortion s
  s.Hs.a0_ast
    + s.Hs.NmSmall * (List.zipWith (· * ·) rr.1 s.rep_sm_vec).sum
    + s.Hs.NmLarge * (List.zipWith (· * ·) rr.2 s.rep_lg_vec).sum

/-- The convergence measure of both fixed-point loops: sum, over
non-water components, of `|C_small_new - C_small|/C_small_new
+ |C_large_new - C_large|/C_large_new`, computed with numpy float
semantics (a zero divisor yields inf or NaN; there is no guard). -/
def errMeasure : List Component → List ℝ → List ℝ → List ℝ → List ℝ → NVal
  | c :: cs, csn :: csns, cso :: csos, cln :: clns, clo :: clos =>
    let rest := errMeasure cs csns csos clns clos
    if c.compname = "h2o" then rest
    else nvAdd (nvAdd (nvDivAbs |csn - cso| csn) (nvDivAbs |cln - clo| cln)) rest
  | _, _, _, _, _ => .fin 0

/-- Convergence tolerance `TOL = 1e-3` of both loops. -/
def TOLc : ℝ := 1e-3

/-- One iteration of the `find_stdstate_volume` `while` loop (evaluated
at `T_0`, `P_0` with the standard-state fugacities; the lattice size and
kappa are recomputed every iteration). -/
def stdStep (s : EosState) (Cs Cl : List ℝ) (kappa : PyVal) (lattice_sz : ℝ) :
    EosState × List ℝ × List ℝ × PyVal × ℝ × NVal :=
  let out := iterate_function s T0c P0c s.stdstate_fug lattice_sz kappa
  let s' := { s with Y_small_0 := out.2.2.1, Y_large_0 := out.2.2.2 }
  let lattice' := filled_lattice_size s'
  let kappa' := kappa_func s' s'.Y_large_0
  let err := errMeasure s'.comps out.1 Cs out.2.1 Cl
  (s', out.1, out.2.1, kappa', lattice', err)

/-- The `while error > TOL` loop of `find_stdstate_volume`, with fuel;
`none` means the loop has not exited within `fuel` iterations (the
source loop has no iteration bound).  On exit it returns the state
together with the final kappa, lattice size and convergence measure. -/
def stdLoop : Nat → EosState → List ℝ → List ℝ → PyVal → ℝ →
    Option (EosState × PyVal × ℝ × NVal)
  | 0, _, _, _, _, _ => none
  | n + 1, s, Cs, Cl, kappa, lattice_sz =>
    let r := stdStep s Cs Cl kappa lattice_sz
    if nvGT r.2.2.2.2.2 TOLc then stdLoop n r.1 r.2.1 r.2.2.1 r.2.2.2.1 r.2.2.2.2.1
    else some (r.1, r.2.2.2.1, r.2.2.2.2.1, r.2.2.2.2.2)

/-- `HvdwpmEos.find_stdstate_volume`: iterate from zero constants,
`kappa0` and the nominal lattice size; on convergence store `kappa_tmp`
(no copy), `a_0` and `v_H_0`.  The final convergence measure is
returned alongside for the termination theorems. -/
def find_stdstate_volume (s : EosState) (fuel : Nat) : Option (EosState × NVal) :=
  (stdLoop fuel s (List.replicate s.comps.length 0) (List.replicate s.comps.length 0)
      s.kappa0 s.Hs.a0_ast).map
    (fun r => ({ r.1 with
                 kappa_tmp := r.2.1
                 a_0 := r.2.2.1
                 v_H_0 := lattice_to_volume r.1.Hs r.2.2.1 }, r.2.2.2))

/-- One iteration of the `find_hydrate_properties` `while` loop (the
lattice size is fixed; kappa, the constants and the occupancies are
iterated at the call's `T`, `P`, `eq_fug`). -/
def findStep (s : EosState) (T P : ℝ) (eq_fug : List ℝ) (Cs Cl : List ℝ)
    (kappa : PyVal) (lattice_sz : ℝ) :
    EosState × List ℝ × List ℝ × PyVal × NVal :=
  let out := iterate_function s T P eq_fug lattice_sz kappa
  let s' := { s with Y_small := out.2.2.1, Y_large := out.2.2.2 }
  let kappa' := kappa_func s' s'.Y_large
  let err := errMeasure s'.comps out.1 Cs out.2.1 Cl
  (s', out.1, out.2.1, kappa', err)

/-- The `while error > TOL` loop of `find_hydrate_properties`, with
fuel; `none` means the loop has not exited within `fuel` iterations. -/
def findLoop : Nat → EosState → ℝ → ℝ → List ℝ → List ℝ → List ℝ → PyVal → ℝ →
    Option (EosState × List ℝ × List ℝ × PyVal × NVal)
  | 0, _, _, _, _, _, _, _, _ => none
  | n + 1, s, T, P, eq_fug, Cs, Cl, kappa, lattice_sz =>
    let r := findStep s T P eq_fug Cs Cl kappa lattice_sz
    if nvGT r.2.2.2.2 TOLc then findLoop n r.1 T P eq_fug r.2.1 r.2.2.1 r.2.2.2.1 lattice_sz
    else some r

/-- `HvdwpmEos.find_hydrate_properties`: warm-start the constants from
`self.C_small`/`self.C_large` when present, else zeros; take
`kappa = self.kappa_tmp.copy()` (AttributeError when `kappa_tmp` is a
plain float); run the loop at the fixed lattice `a_0`; on exit store the
constants, `kappa_tmp = kappa.copy()` and
`v_H = Hydrate_size(T, P, v_H_0, kappa)`.  The final convergence measure
is returned alongside. -/
def find_hydrate_properties (s : EosState) (T P : ℝ) (eq_fug : List ℝ)
    (fuel : Nat) : Except PyErr (Option (EosState × NVal)) :=
  let Cs := match s.C_small with
    | some c => c
    | none => List.replicate s.comps.length 0
  let Cl := match s.C_large with
    | some c => c
    | none => List.replicate s.comps.length 0
  match s.kappa_tmp.copy with
  | .error e => .error e
  | .ok kappa0v =>
    match findLoop fuel s T P eq_fug Cs Cl kappa0v s.a_0 with
    | none => .ok none
    | some r =>
      match r.2.2.2.1.copy with
      | .error e => .error e
      | .ok kappaC =>
        .ok (some ({ r.1 with
                     C_small := some r.2.1
                     C_large := some r.2.2.1
                     kappa_tmp := kappaC
                     v_H := Hydrate_size r.1.Hs T P r.1.v_H_0 r.2.2.2.1.toR false },
                   r.2.2.2.2))

/-- `HydrateEos.delta_mu_func`. -/
def delta_mu_func (s : EosState) : ℝ :=
  (s.Hs.NmSmall * Real.log (1 - s.Y_small.sum)
    + s.Hs.NmLarge * Real.log (1 - s.Y_large.sum)) / s.Hs.Num_h2o

/-- `HvdwpmEos.activity_func`. -/
def activity_func (s : EosState) (T P v_H_0 : ℝ) : ℝ :=
  let kappa_wtavg := (kappa_func s s.Y_large).toR
  (v_H_0 - s.a0_cubed) / Rc * (s.Hs.a_fit / T0c + s.Hs.b_fit * (1 / T - 1 / T0c))
    + ((Hvol_Pint s.Hs T P v_H_0 kappa_wtavg
        - Hvol_Pint s.Hs T P s.a0_cubed s.kappa0.toR)
      - (Hvol_Pint s.Hs T P0c v_H_0 kappa_wtavg
        - Hvol_Pint s.Hs T P0c s.a0_cubed s.kappa0.toR)) * 1e-1 / (Rc * T)

/-- `HvdwpmEos.fugacity`: seed the output vector (from the cached
`self.fug.copy()` when `eq_fug` equals `self.eq_fug`, which the method
never updates and which therefore stays the zero vector of
construction; otherwise zeros with `fug[1:] = eq_fug[1:]` by position),
then unconditionally run `find_hydrate_properties`, and finally write
`exp(mu_H/RT - gw0_RT)` into position 0.  `self.fug` is updated with a
copy of the result; `self.eq_fug` is not updated.  `x` is the unused
dummy mole-fraction argument. -/
def fugacity (s : EosState) (T P : ℝ) (_x eq_fug : List ℝ) (fuel : Nat) :
    Except PyErr (Option (List ℝ × EosState)) :=
  let seeded : Except PyErr (List ℝ) :=
    if eq_fug = s.eq_fug then
      match s.fug.copy with
      | .error e => .error e
      | .ok v => .ok v.toList
    else .ok (0 :: eq_fug.drop 1)
  match seeded with
  | .error e => .error e
  | .ok fug0 =>
    match find_hydrate_properties s T P eq_fug fuel with
    | .error e => .error e
    | .ok none => .ok none
    | .ok (some r) =>
      let s1 := r.1
      let mu_H_RT := s1.gwbeta_RT + activity_func s1 T P s1.v_H_0 + delta_mu_func s1
      let fugv := fug0.set 0 (Real.exp (mu_H_RT - s1.gw0_RT))
      .ok (some (fugv, { s1 with fug := .nparr fugv }))

/-- `HydrateEos.calc` (named `calcFug` since `calc` is reserved in
Lean).  After the length and component-list checks, both remaining
paths of the `else` branch evaluate the undefined name `compobjs`
(lines 326 and 328 of the source; the parameter is named `comps`), so
they raise NameError before any computation.  A mismatched component
list only prints a warning and returns `None`. -/
def calcFug (s : EosState) (comps : List Component) (T P : ℝ)
    (x eq_fug : List ℝ) : Except PyErr (Option (List ℝ)) :=
  if x.length ≠ comps.length then
    if x.length > comps.length then .error .runtimeError
    else if x = [] then .error .runtimeError
    else .error .runtimeError
  else if comps ≠ s.comps then .ok none
  else if s.T ≠ T ∨ s.P ≠ P then .error .nameError
  else .error .nameError

/-- Base-class portion of construction (`HydrateEos.__init__` after the
water lookup, plus the `HvdwpmEos.__init__` vector initialisation).
`kappa_tmp` does not exist yet in Python; its placeholder here is
assigned by `find_stdstate_volume` before any modelled read. -/
def hvdwpmBase (comps : List Component) (T P : ℝ) (wi : Nat) (hs : HsTable) :
    EosState :=
  { comps := comps, water_ind := wi, T := T, P := P, Hs := hs,
    eq_fug := List.replicate comps.length 0, fug := .pint 0,
    Y_small := List.replicate comps.length 0,
    Y_large := List.replicate comps.length 0,
    Y_small_0 := List.replicate comps.length 0,
    Y_large_0 := List.replicate comps.length 0,
    gw0_RT := 0, gwbeta_RT := 0, lattice_Tfactor := 0, vol_Tfactor := 0,
    a0_cubed := lattice_to_volume hs hs.a0_ast,
    kappa0 := .pfloat hs.kappa, kappa_tmp := .pint 0,
    kappa_vec := comps.map (fun c => (c.hvdwpmAt hs.hydstruc).kappa),
    rep_sm_vec := comps.map (fun c => (c.hvdwpmAt hs.hydstruc).rep_small),
    rep_lg_vec := comps.map (fun c => (c.hvdwpmAt hs.hydstruc).rep_large),
    D_vec := comps.map (·.diam),
    stdstate_fug := comps.map (·.stdst_fug),
    a_0 := 0, v_H_0 := 0, v_H := 0, a_new := hs.a_norm,
    C_small := none, C_large := none }

/-- `HvdwpmEos.make_constant_mats` (which also performs the base-class
`make_constant_mats`: sets `T`, `P` and `gw0_RT`). -/
def make_constant_mats (s : EosState) (T P : ℝ) : EosState :=
  let gw0 := (s.comps.getD s.water_ind compDefault).gibbs_ideal T P
  let gwbeta :=
    s.Hs.gw_0beta / (Rc * T0c)
      - (12 * T * s.Hs.hw_0beta - 12 * T0c * s.Hs.hw_0beta
         + 12 * T0c ^ 2 * cp_a0 + 6 * T0c ^ 3 * cp_a1
         + 4 * T0c ^ 4 * cp_a2 + 3 * T0c ^ 5 * cp_a3
         - 12 * T * T0c * cp_a0 - 12 * T * T0c ^ 2 * cp_a1
         + 6 * T ^ 2 * T0c * cp_a1 - 6 * T * T0c ^ 3 * cp_a2
         + 2 * T ^ 3 * T0c * cp_a2 - 4 * T * T0c ^ 4 * cp_a3
         + T ^ 4 * T0c * cp_a3 + 12 * T * T0c * cp_a0 * Real.log T
         - 12 * T * T0c * cp_a0 * Real.log T0c) / (12 * Rc * T * T0c)
      + (Hvol_Pint s.Hs T P s.a0_cubed s.kappa0.toR
         - Hvol_Pint s.Hs T P0c s.a0_cubed s.kappa0.toR) * 1e-1 / (Rc * T)
  { s with
    T := T
    P := P
    gw0_RT := gw0
    gwbeta_RT := gwbeta
    vol_Tfactor := Hydrate_size s.Hs T P0c 1 s.kappa0.toR false
    lattice_Tfactor := Hydrate_size s.Hs T P0c 1 s.kappa0.toR true }

/-- `HvdwpmEos.__init__`: water lookup, structure resolution, attribute
initialisation, `make_constant_mats`, then the one-time
`find_stdstate_volume` reference-state solve.  `.ok none` means the
reference-state loop did not exit within `fuel` iterations. -/
def hvdwpmInit (comps : List Component) (T P : ℝ) (hid : PyId) (fuel : Nat) :
    Except PyErr (Option EosState) :=
  match waterIndex comps with
  | .error e => .error e
  | .ok wi =>
    match hydStrucResolve hid with
    | .error e => .error e
    | .ok tag =>
      let s0 := hvdwpmBase comps T P wi (structTable tag)
      let s1 := make_constant_mats s0 T P
      match find_stdstate_volume s1 fuel with
      | none => .ok none
      | some r => .ok (some r.1)

/-!  Concrete instances used by the claim theorems.  The guest
components place their Kihara hard-core radius exactly at the scaled
small-cage minimum shell radius of structure s1 at (T_0, P_0), so the
small-cage quadrature runs over the degenerate interval [0, 0]; this
makes the fixed-point loops provably exit (the convergence measure
becomes NaN, and `nan > TOL` is false in Python). -/

/-- Lattice scaling factor `a0_ast / a_norm` of structure s1, which is
the `a_factor` of `compute_integral_constants` at `(T_0, P_0)`. -/
def fct : ℝ := 11.99245 / 12.03

/-- Hard-core radius equal to the scaled minimum small-shell radius. -/
def aStar : ℝ := 3.83 * fct

/-- Guest component 1 (standard-state fugacity 0). -/
def gA : Component :=
  { compname := "m1", diam := 4, stdst_fug := 0,
    kih := ⟨150, 3, aStar⟩, hvdwpmS1 := ⟨7, 0.01, 0.02⟩,
    hvdwpmS2 := ⟨0, 0, 0⟩, hvdwpmSH := ⟨0, 0, 0⟩,
    gibbs_ideal := fun _ _ => 0 }

/-- Guest component 2 (standard-state fugacity 0). -/
def gB : Component :=
  { compname := "m2", diam := 4.5, stdst_fug := 0,
    kih := ⟨170, 3.2, aStar⟩, hvdwpmS1 := ⟨9, 0.015, 0.025⟩,
    hvdwpmS2 := ⟨0, 0, 0⟩, hvdwpmSH := ⟨0, 0, 0⟩,
    gibbs_ideal := fun _ _ => 0 }

/-- The water component. -/
def wC : Component :=
  { compname := "h2o", diam := 2.75, stdst_fug := 0,
    kih := ⟨0, 0, 0⟩, hvdwpmS1 := ⟨1, 0, 0⟩,
    hvdwpmS2 := ⟨0, 0, 0⟩, hvdwpmSH := ⟨0, 0, 0⟩,
    gibbs_ideal := fun _ _ => 0 }

/-- A three-component system: two guests and water, with water listed
last (index 2). -/
def comps3 : List Component := [gA, gB, wC]

/-- A two-component system: one guest and water. -/
def comps2 : List Component := [gA, wC]

/-- Dummy mole fractions for the three-component calls. -/
def x0 : List ℝ := [0, 0, 0]

/-- Equilibrium fugacities supplied to the three-component calls (the
entry at the water index is -1, which no exponential can equal). -/
def ef0 : List ℝ := [5, 6, -1]

/-- Construction of the three-component instance at `(T_0, P_0)`. -/
def construct3 : Except PyErr (Option EosState) :=
  hvdwpmInit comps3 T0c P0c (.s "s1") 5

/-- Construction of the two-component instance at `(T_0, P_0)`. -/
def construct2 : Except PyErr (Option EosState) :=
  hvdwpmInit comps2 T0c P0c (.s "s1") 5

/-- Guest whose hard-core radius exceeds every scaled shell radius, so
both integration upper bounds are negative. -/
def gBig : Component :=
  { gA with compname := "big", kih := ⟨150, 3, 50⟩ }

/-- Guest with a small hard-core radius, so both integration upper
bounds are positive. -/
def gSm : Component :=
  { gA with compname := "sm", kih := ⟨150, 3, 0.5⟩ }

/-- A base instance state (as laid out by construction) specialised to
a given component list, with the `(T_0, P_0)` temperature factor 1, for
exercising `langmuir_consts` directly. -/
def mkLCState (cs : List Component) : EosState :=
  { hvdwpmBase cs T0c P0c 1 hs_s1 with lattice_Tfactor := 1 }

/-- State holding the oversized guest. -/
def sL7 : EosState := mkLCState [gBig, wC]

/-- State holding the small guest. -/
def sL7b : EosState := mkLCState [gSm, wC]

/-- The three-component instance state right before the reference-state
solve (base attributes plus `make_constant_mats` at `(T_0, P_0)`). -/
def s3base : EosState :=
  make_constant_mats (hvdwpmBase comps3 T0c P0c 2 hs_s1) T0c P0c

/-- The two-component instance state right before the reference-state
solve. -/
def s2base : EosState :=
  make_constant_mats (hvdwpmBase comps2 T0c P0c 1 hs_s1) T0c P0c

/-- The three-component instance state after construction (the
reference-state loop exits after one iteration with all occupancies
zero, the nominal lattice size and a weighted compressibility of 0). -/
def s3post : EosState :=
  { { s3base with Y_small_0 := [0, 0, 0], Y_large_0 := [0, 0, 0] } with
    kappa_tmp := .npfloat 0
    a_0 := 11.99245
    v_H_0 := lattice_to_volume hs_s1 11.99245 }

/-- The two-component instance state after construction (`kappa_tmp`
is the structure's nominal compressibility, a plain Python float). -/
def s2post : EosState :=
  { { s2base with Y_small_0 := [0, 0], Y_large_0 := [0, 0] } with
    kappa_tmp := .pfloat hs_s1.kappa
    a_0 := filled_lattice_size
      { s2base with Y_small_0 := [0, 0], Y_large_0 := [0, 0] }
    v_H_0 := lattice_to_volume hs_s1 (filled_lattice_size
      { s2base with Y_small_0 := [0, 0], Y_large_0 := [0, 0] }) }

/-! Helper lemmas about the extended-value arithmetic. -/

theorem nvAdd_nan_left (v : NVal) : nvAdd .nan v = .nan := by
  cases v <;> rfl

theorem nvAdd_nan_right (v : NVal) : nvAdd v .nan = .nan := by
  cases v <;> rfl

theorem nvGT_nan_false (t : ℝ) : ¬ nvGT .nan t := fun h => h

theorem isFin_nvAdd (a b : NVal) : (nvAdd a b).isFin ↔ a.isFin ∧ b.isFin := by
  cases a <;> cases b <;> simp [nvAdd, NVal.isFin]

theorem isFin_nvDivAbs (num den : ℝ) : (nvDivAbs num den).isFin ↔ den ≠ 0 := by
  by_cases h : den = 0
  · by_cases hn : num = 0 <;> simp [nvDivAbs, h, hn, NVal.isFin]
  · simp [nvDivAbs, h, NVal.isFin]

theorem errMeasure_cons_water (c : Component) (cs : List Component)
    (a d b e : ℝ) (Csn Cs Cln Cl : List ℝ) (hw : c.compname = "h2o") :
    errMeasure (c :: cs) (a :: Csn) (b :: Cs) (d :: Cln) (e :: Cl) =
      errMeasure cs Csn Cs Cln Cl := by
  simp [errMeasure, hw]

theorem errMeasure_cons_guest (c : Component) (cs : List Component)
    (a d b e : ℝ) (Csn Cs Cln Cl : List ℝ) (hw : ¬ c.compname = "h2o") :
    errMeasure (c :: cs) (a :: Csn) (b :: Cs) (d :: Cln) (e :: Cl) =
      nvAdd (nvAdd (nvDivAbs |a - b| a) (nvDivAbs |d - e| d))
        (errMeasure cs Csn Cs Cln Cl) := by
  simp [errMeasure, hw]

/-- C10: in both fixed-point loops the convergence measure divides the
change in each non-water component's langmuir constants by the newly
computed constants with no guard against zero (`nvDivAbs`); under numpy
float semantics the measure is a finite number exactly when every
non-water component's newly computed small- and large-cage langmuir
constant is nonzero. -/
theorem C10_err_measure_finite_iff (comps : List Component)
    (Csn Cs Cln Cl : List ℝ)
    (h1 : Csn.length = comps.length) (h2 : Cs.length = comps.length)
    (h3 : Cln.length = comps.length) (h4 : Cl.length = comps.length) :
    (errMeasure comps Csn Cs Cln Cl).isFin ↔
      (∀ i c, comps.get? i = some c → c.compname ≠ "h2o" →
        Csn.getD i 0 ≠ 0 ∧ Cln.getD i 0 ≠ 0) := by
  induction comps generalizing Csn Cs Cln Cl with
  | nil => simp [errMeasure, NVal.isFin]
  | cons c cs ih =>
    cases Csn with
    | nil => simp at h1
    | cons a Csn =>
      cases Cs with
      | nil => simp at h2
      | cons b Cs =>
        cases Cln with
        | nil => simp at h3
        | cons d Cln =>
          cases Cl with
          | nil => simp at h4
          | cons e Cl =>
            simp only [List.length_cons, Nat.add_right_cancel_iff] at h1 h2 h3 h4
            by_cases hw : c.compname = "h2o"
            · rw [errMeasure_cons_water c cs a d b e Csn Cs Cln Cl hw,
                ih Csn Cs Cln Cl h1 h2 h3 h4]
              constructor
              · intro h i cc hc hcw
                cases i with
                | zero =>
                  simp only [List.get?_cons_zero, Option.some.injEq] at hc
                  exact absurd (hc ▸ hw) hcw
                | succ i =>
                  simp only [List.get?_cons_succ] at hc
                  simpa using h i cc hc hcw
              · intro h i cc hc hcw
                have := h (i + 1) cc (by simpa using hc) hcw
                simpa using this
            · rw [errMeasure_cons_guest c cs a d b e Csn Cs Cln Cl hw,
                isFin_nvAdd, isFin_nvAdd, isFin_nvDivAbs, isFin_nvDivAbs,
                ih Csn Cs Cln Cl h1 h2 h3 h4]
              constructor
              · rintro ⟨⟨ha, hd⟩, htail⟩ i cc hc hcw
                cases i with
                | zero =>
                  simp only [List.get?_cons_zero, Option.some.injEq] at hc
                  simpa using ⟨ha, hd⟩
                | succ i =>
                  simp only [List.get?_cons_succ] at hc
                  simpa using htail i cc hc hcw
              · intro h
                refine ⟨⟨by simpa using (h 0 c (by simp) hw).1,
                        by simpa using (h 0 c (by simp) hw).2⟩, ?_⟩
                intro i cc hc hcw
                have := h (i + 1) cc (by simpa using hc) hcw
                simpa using this

/-- Witness for C10: a concrete measure over the three-component system
with nonzero new constants for both guests is finite. -/
theorem C10_witness :
    (errMeasure comps3 [1, 2, 0] [0, 0, 0] [3, 4, 0] [0, 0, 0]).isFin := by
  refine (C10_err_measure_finite_iff comps3 [1, 2, 0] [0, 0, 0] [3, 4, 0] [0, 0, 0]
    (by simp [comps3]) (by simp [comps3]) (by simp [comps3]) (by simp [comps3])).mpr ?_
  intro i c hc hw
  match i, hc with
  | 0, hc =>
    refine ⟨by norm_num, by norm_num⟩
  | 1, hc =>
    refine ⟨by norm_num, by norm_num⟩
  | 2, hc =>
    simp only [comps3, List.get?_cons_succ, List.get?_cons_zero,
      Option.some.injEq] at hc
    exact absurd (by rw [← hc]; rfl) hw

/-- C5: constructing over a component list with no water fails with an
uncaught IndexError (the `[...][0]` subscript on the empty list) rather
than the typed RuntimeError its `except ValueError` handler was meant
to raise; the structure resolver matches aliases case-insensitively and
raises RuntimeError only for unrecognised string identifiers (an
unrecognised int identifier raises TypeError from `hyd_type + str`). -/
theorem C5_no_water_raises_indexerror :
    hvdwpmInit [gA] T0c P0c (.s "s1") 5 = .error .indexError ∧
    PyErr.indexError ≠ PyErr.runtimeError ∧
    hydStrucResolve (.s "SII") = .ok "s2" ∧
    hydStrucResolve (.s "One") = .ok "s1" ∧
    hydStrucResolve (.i 2) = .ok "s2" ∧
    hydStrucResolve (.s "H") = .ok "sH" ∧
    hydStrucResolve (.s "s3") = .error .runtimeError ∧
    hydStrucResolve (.i 5) = .error .typeError := by
  refine ⟨?_, by decide, by rfl, by rfl, by rfl, by rfl, by rfl, by rfl⟩
  simp [hvdwpmInit, waterIndex, waterIdxAux, gA]

/-! Helper lemmas for the occupancy function. -/

theorem zipWith_mul_nonneg (C f : List ℝ) (hC : ∀ x ∈ C, 0 ≤ x)
    (hf : ∀ x ∈ f, 0 ≤ x) : ∀ y ∈ List.zipWith (· * ·) C f, 0 ≤ y := by
  induction C generalizing f with
  | nil => simp
  | cons a as' ih =>
    cases f with
    | nil => simp
    | cons b bs =>
      intro y hy
      simp only [List.zipWith_cons_cons, List.mem_cons] at hy
      rcases hy with rfl | hy
      · exact mul_nonneg (hC a (by simp)) (hf b (by simp))
      · exact ih bs (fun x hx => hC x (by simp [hx]))
          (fun x hx => hf x (by simp [hx])) y hy

theorem calc_langmuirAux_get (denom : ℝ) (comps : List Component)
    (C f : List ℝ) (i : ℕ) (c : Component) (hc : comps.get? i = some c)
    (hlc : C.length = comps.length) (hlf : f.length = comps.length) :
    (calc_langmuirAux denom comps C f).getD i 0 =
      if c.compname = "h2o" then 0 else C.getD i 0 * f.getD i 0 / denom := by
  induction comps generalizing C f i with
  | nil => simp at hc
  | cons hd tl ih =>
    cases C with
    | nil => simp at hlc
    | cons a as' =>
      cases f with
      | nil => simp at hlf
      | cons b bs =>
        simp only [List.length_cons, Nat.add_right_cancel_iff] at hlc hlf
        cases i with
        | zero =>
          simp only [List.get?_cons_zero, Option.some.injEq] at hc
          subst hc
          simp [calc_langmuirAux]
        | succ i =>
          simp only [List.get?_cons_succ] at hc
          simpa [calc_langmuirAux] using ih as' bs i hc hlc hlf

theorem calc_langmuirAux_mem (denom : ℝ) (comps : List Component)
    (C f : List ℝ) (hd : 1 ≤ denom)
    (hb : ∀ y ∈ List.zipWith (· * ·) C f, 0 ≤ y ∧ y ≤ denom - 1) :
    ∀ y ∈ calc_langmuirAux denom comps C f, 0 ≤ y ∧ y < 1 := by
  have hdpos : (0 : ℝ) < denom := lt_of_lt_of_le one_pos hd
  induction comps generalizing C f with
  | nil => simp [calc_langmuirAux]
  | cons c cs ih =>
    cases C with
    | nil => simp [calc_langmuirAux]
    | cons a as' =>
      cases f with
      | nil => simp [calc_langmuirAux]
      | cons b bs =>
        intro y hy
        simp only [calc_langmuirAux, List.mem_cons] at hy
        rcases hy with rfl | hy
        · by_cases hw : c.compname = "h2o"
          · simp [hw]
          · simp only [hw, if_false]
            obtain ⟨h0, h1⟩ := hb (a * b) (by simp)
            refine ⟨div_nonneg h0 hdpos.le, ?_⟩
            have h2 : a * b / denom ≤ (denom - 1) / denom := by gcongr
            refine lt_of_le_of_lt h2 ?_
            rw [div_lt_one hdpos]
            linarith
        · exact ih as' bs (fun z hz => hb z (by simp [hz])) y hy

theorem calc_langmuirAux_sum_le (denom : ℝ) (comps : List Component)
    (C f : List ℝ) (hdpos : 0 < denom)
    (hb : ∀ y ∈ List.zipWith (· * ·) C f, 0 ≤ y) :
    (calc_langmuirAux denom comps C f).sum ≤
      (List.zipWith (· * ·) C f).sum / denom := by
  induction comps generalizing C f with
  | nil =>
    simp only [calc_langmuirAux, List.sum_nil]
    exact div_nonneg (List.sum_nonneg hb) hdpos.le
  | cons c cs ih =>
    cases C with
    | nil =>
      simp [calc_langmuirAux]
    | cons a as' =>
      cases f with
      | nil =>
        simp [calc_langmuirAux]
      | cons b bs =>
        have htail := ih as' bs (fun z hz => hb z (by simp [hz]))
        have hab : 0 ≤ a * b := hb (a * b) (by simp)
        simp only [calc_langmuirAux, List.zipWith_cons_cons, List.sum_cons, add_div]
        by_cases hw : c.compname = "h2o"
        · simp only [hw, if_true, List.sum_cons]
          have : 0 ≤ a * b / denom := div_nonneg hab hdpos.le
          linarith
        · simp only [hw, if_false, List.sum_cons]
          linarith

/-- C8: the occupancy computation is the pure function `calc_langmuir`:
for nonnegative langmuir constants and fugacities the denominator
`1 + Σ C·f` is at least 1 (so no division by zero), the water entry is
0, each non-water entry is `C[i]·f[i]` divided by that denominator,
every entry lies in `[0, 1)`, and the total guest occupancy is strictly
below 1. -/
theorem C8_occupancy (comps : List Component) (C f : List ℝ)
    (hlc : C.length = comps.length) (hlf : f.length = comps.length)
    (hC : ∀ x ∈ C, 0 ≤ x) (hf : ∀ x ∈ f, 0 ≤ x) :
    1 ≤ 1 + (List.zipWith (· * ·) C f).sum ∧
    (∀ i c, comps.get? i = some c → c.compname = "h2o" →
      (calc_langmuir comps C f).getD i 0 = 0) ∧
    (∀ i c, comps.get? i = some c → c.compname ≠ "h2o" →
      (calc_langmuir comps C f).getD i 0 =
        C.getD i 0 * f.getD i 0 / (1 + (List.zipWith (· * ·) C f).sum)) ∧
    (∀ y ∈ calc_langmuir comps C f, 0 ≤ y ∧ y < 1) ∧
    (calc_langmuir comps C f).sum < 1 := by
  set denom := 1 + (List.zipWith (· * ·) C f).sum with hdenom
  have hprod := zipWith_mul_nonneg C f hC hf
  have hsum : 0 ≤ (List.zipWith (· * ·) C f).sum := List.sum_nonneg hprod
  have hd : 1 ≤ denom := by rw [hdenom]; linarith
  have hdpos : (0 : ℝ) < denom := lt_of_lt_of_le one_pos hd
  refine ⟨hd, ?_, ?_, ?_, ?_⟩
  · intro i c hc hw
    rw [calc_langmuir, ← hdenom, calc_langmuirAux_get denom comps C f i c hc hlc hlf,
      if_pos hw]
  · intro i c hc hw
    rw [calc_langmuir, ← hdenom, calc_langmuirAux_get denom comps C f i c hc hlc hlf,
      if_neg hw]
  · rw [calc_langmuir, ← hdenom]
    refine calc_langmuirAux_mem denom comps C f hd ?_
    intro y hy
    refine ⟨hprod y hy, ?_⟩
    have := List.single_le_sum hprod y hy
    rw [hdenom]
    linarith
  · rw [calc_langmuir, ← hdenom]
    have h1 := calc_langmuirAux_sum_le denom comps C f hdpos hprod
    have h2 : (List.zipWith (· * ·) C f).sum / denom < 1 := by
      rw [div_lt_one hdpos, hdenom]
      linarith
    linarith

/-- Witness for C8 at a concrete input: one guest with constant 2 and
fugacity 1/2 next to water, giving total guest occupancy 1/2 < 1. -/
theorem C8_witness :
    (calc_langmuir comps2 [2, 0] [1 / 2, 0]).sum < 1 :=
  (C8_occupancy comps2 [2, 0] [1 / 2, 0] (by simp [comps2]) (by simp [comps2])
    (by intro x hx; simp at hx; rcases hx with rfl | rfl <;> norm_num)
    (by intro x hx; simp at hx; rcases hx with rfl | rfl <;> norm_num)).2.2.2.2

/-! Helper lemmas for the langmuir-constant computation. -/

theorem integrand_nonneg (r : ℝ) (Rl zl : List ℝ) (e sg a T : ℝ) :
    0 ≤ integrand r Rl zl e sg a T :=
  mul_nonneg (sq_nonneg r) (Real.exp_pos _).le

theorem CconstF_nonneg (T : ℝ) (hT : 0 < T) : 0 ≤ CconstF T := by
  unfold CconstF kBc
  positivity

theorem quadI_integrand_nonneg (Rl zl : List ℝ) (e sg a T ub : ℝ) (h : 0 ≤ ub) :
    0 ≤ quadI (fun r => integrand r Rl zl e sg a T) 0 ub := by
  unfold quadI
  exact intervalIntegral.integral_nonneg h (fun u _ => integrand_nonneg u Rl zl e sg a T)

theorem quadI_integrand_nonpos (Rl zl : List ℝ) (e sg a T ub : ℝ) (h : ub ≤ 0) :
    quadI (fun r => integrand r Rl zl e sg a T) 0 ub ≤ 0 := by
  unfold quadI
  rw [intervalIntegral.integral_symm]
  have : 0 ≤ ∫ r in ub..0, integrand r Rl zl e sg a T :=
    intervalIntegral.integral_nonneg h (fun u _ => integrand_nonneg u Rl zl e sg a T)
  linarith

theorem langmuir_constsAux_cons_water (Rsm Rlg zsm zlg : List ℝ) (Cc T : ℝ)
    (hd : Component) (tl : List Component) (hw : hd.compname = "h2o") :
    langmuir_constsAux Rsm Rlg zsm zlg Cc T (hd :: tl) =
      ⟨0 :: (langmuir_constsAux Rsm Rlg zsm zlg Cc T tl).Cs,
       0 :: (langmuir_constsAux Rsm Rlg zsm zlg Cc T tl).Cl,
       (langmuir_constsAux Rsm Rlg zsm zlg Cc T tl).calls⟩ := by
  simp [langmuir_constsAux, hw]

theorem langmuir_constsAux_cons_guest (Rsm Rlg zsm zlg : List ℝ) (Cc T : ℝ)
    (hd : Component) (tl : List Component) (hw : ¬ hd.compname = "h2o") :
    langmuir_constsAux Rsm Rlg zsm zlg Cc T (hd :: tl) =
      ⟨(lcGuest Rsm Rlg zsm zlg Cc T hd).1.1 ::
         (langmuir_constsAux Rsm Rlg zsm zlg Cc T tl).Cs,
       (lcGuest Rsm Rlg zsm zlg Cc T hd).1.2 ::
         (langmuir_constsAux Rsm Rlg zsm zlg Cc T tl).Cl,
       (lcGuest Rsm Rlg zsm zlg Cc T hd).2 ++
         (langmuir_constsAux Rsm Rlg zsm zlg Cc T tl).calls⟩ := by
  simp [langmuir_constsAux, hw]

theorem langmuir_constsAux_water (Rsm Rlg zsm zlg : List ℝ) (Cc T : ℝ)
    (comps : List Component) (i : ℕ) (c : Component)
    (hc : comps.get? i = some c) (hw : c.compname = "h2o") :
    (langmuir_constsAux Rsm Rlg zsm zlg Cc T comps).Cs.get? i = some 0 ∧
    (langmuir_constsAux Rsm Rlg zsm zlg Cc T comps).Cl.get? i = some 0 := by
  induction comps generalizing i with
  | nil => simp at hc
  | cons hd tl ih =>
    cases i with
    | zero =>
      simp only [List.get?_cons_zero, Option.some.injEq] at hc
      subst hc
      simp [langmuir_constsAux, hw]
    | succ i =>
      simp only [List.get?_cons_succ] at hc
      have := ih i hc
      by_cases hh : hd.compname = "h2o"
      · rw [langmuir_constsAux_cons_water Rsm Rlg zsm zlg Cc T hd tl hh]
        simpa using this
      · rw [langmuir_constsAux_cons_guest Rsm Rlg zsm zlg Cc T hd tl hh]
        simpa using this

theorem langmuir_constsAux_guest (Rsm Rlg zsm zlg : List ℝ) (Cc T : ℝ)
    (comps : List Component) (i : ℕ) (c : Component)
    (hc : comps.get? i = some c) (hw : ¬ c.compname = "h2o") :
    (langmuir_constsAux Rsm Rlg zsm zlg Cc T comps).Cs.get? i =
      some (Cc * quadI (fun r => integrand r Rsm zsm c.kih.epsk c.kih.sig c.kih.a T)
        0 (listMin Rsm - c.kih.a)) ∧
    (langmuir_constsAux Rsm Rlg zsm zlg Cc T comps).Cl.get? i =
      some (Cc * quadI (fun r => integrand r Rlg zlg c.kih.epsk c.kih.sig c.kih.a T)
        0 (listMin Rlg - c.kih.a)) ∧
    (0, listMin Rsm - c.kih.a) ∈ (langmuir_constsAux Rsm Rlg zsm zlg Cc T comps).calls ∧
    (0, listMin Rlg - c.kih.a) ∈ (langmuir_constsAux Rsm Rlg zsm zlg Cc T comps).calls := by
  induction comps generalizing i with
  | nil => simp at hc
  | cons hd tl ih =>
    cases i with
    | zero =>
      simp only [List.get?_cons_zero, Option.some.injEq] at hc
      subst hc
      simp [langmuir_constsAux, hw, lcGuest]
    | succ i =>
      simp only [List.get?_cons_succ] at hc
      have := ih i hc
      by_cases hh : hd.compname = "h2o"
      · rw [langmuir_constsAux_cons_water Rsm Rlg zsm zlg Cc T hd tl hh]
        simpa using this
      · rw [langmuir_constsAux_cons_guest Rsm Rlg zsm zlg Cc T hd tl hh]
        refine ⟨by simpa using this.1, by simpa using this.2.1, ?_, ?_⟩
        · exact List.mem_append_right _ this.2.2.1
        · exact List.mem_append_right _ this.2.2.2

/-- C7 (amended): `langmuir_consts` gives water exactly 0 in both cage
types without any quadrature, and for every other component it invokes
the integrator with upper bound `min(shell radii) - coreRadius`
regardless of that bound's sign (no guard exists); the resulting
constant is `C_const` times the quadrature value, and it is nonnegative
whenever the upper bound is nonnegative (and `T > 0`), while for a
non-positive upper bound the quadrature is invoked over the degenerate
reversed interval and `C_const` times its value is ≤ 0 rather than a
guarded 0. -/
theorem C7_langmuir_consts (s : EosState) (T P lat : ℝ) (κ : PyVal) (hT : 0 < T) :
    (∀ i c, s.comps.get? i = some c → c.compname = "h2o" →
      (langmuir_consts s T P lat κ).Cs.get? i = some 0 ∧
      (langmuir_consts s T P lat κ).Cl.get? i = some 0) ∧
    (∀ i c, s.comps.get? i = some c → c.compname ≠ "h2o" →
      (langmuir_consts s T P lat κ).Cs.get? i =
        some (CconstF T * quadI (fun r =>
          integrand r (compute_integral_constants s P lat κ.toR).1 s.Hs.zsm
            c.kih.epsk c.kih.sig c.kih.a T)
          0 (listMin (compute_integral_constants s P lat κ.toR).1 - c.kih.a)) ∧
      (0, listMin (compute_integral_constants s P lat κ.toR).1 - c.kih.a) ∈
        (langmuir_consts s T P lat κ).calls ∧
      (0, listMin (compute_integral_constants s P lat κ.toR).2 - c.kih.a) ∈
        (langmuir_consts s T P lat κ).calls ∧
      (0 ≤ listMin (compute_integral_constants s P lat κ.toR).1 - c.kih.a →
        0 ≤ CconstF T * quadI (fun r =>
          integrand r (compute_integral_constants s P lat κ.toR).1 s.Hs.zsm
            c.kih.epsk c.kih.sig c.kih.a T)
          0 (listMin (compute_integral_constants s P lat κ.toR).1 - c.kih.a)) ∧
      (listMin (compute_integral_constants s P lat κ.toR).1 - c.kih.a ≤ 0 →
        CconstF T * quadI (fun r =>
          integrand r (compute_integral_constants s P lat κ.toR).1 s.Hs.zsm
            c.kih.epsk c.kih.sig c.kih.a T)
          0 (listMin (compute_integral_constants s P lat κ.toR).1 - c.kih.a) ≤ 0)) := by
  constructor
  · intro i c hc hw
    exact langmuir_constsAux_water _ _ _ _ _ _ s.comps i c hc hw
  · intro i c hc hw
    obtain ⟨h1, _h2, h3, h4⟩ :=
      langmuir_constsAux_guest (compute_integral_constants s P lat κ.toR).1
        (compute_integral_constants s P lat κ.toR).2 s.Hs.zsm s.Hs.zlg
        (CconstF T) T s.comps i c hc hw
    refine ⟨h1, h3, h4, ?_, ?_⟩
    · intro hub
      exact mul_nonneg (CconstF_nonneg T hT)
        (quadI_integrand_nonneg _ _ _ _ _ _ _ hub)
    · intro hub
      exact mul_nonpos_of_nonneg_of_nonpos (CconstF_nonneg T hT)
        (quadI_integrand_nonpos _ _ _ _ _ _ _ hub)

theorem Hydrate_size_T0_P0 (hs : HsTable) (v kappa : ℝ) (b : Bool) :
    Hydrate_size hs T0c P0c v kappa b = v := by
  simp [Hydrate_size, sub_self]

theorem cic_s1 (s : EosState) (κ lat : ℝ) (h1 : s.Hs = hs_s1)
    (h2 : s.lattice_Tfactor = 1) (hlat : lat = 11.99245) :
    compute_integral_constants s P0c lat κ =
      ([3.83 * fct, 3.96 * fct], [4.47 * fct, 4.06 * fct, 4.645 * fct, 4.25 * fct]) := by
  unfold compute_integral_constants
  rw [h1, h2, hlat, Hydrate_size_T0_P0]
  norm_num [hs_s1, fct]

theorem fct_pos : (0 : ℝ) < fct := by norm_num [fct]

theorem listMin_s1sm : listMin [3.83 * fct, 3.96 * fct] = 3.83 * fct := by
  have h : (3.83 : ℝ) * fct ≤ 3.96 * fct := by nlinarith [fct_pos]
  simp [listMin, min_eq_left h]

theorem listMin_s1lg :
    listMin [4.47 * fct, 4.06 * fct, 4.645 * fct, 4.25 * fct] = 4.06 * fct := by
  have h1 : min (4.47 * fct) (4.06 * fct) = 4.06 * fct :=
    min_eq_right (by nlinarith [fct_pos])
  have h2 : min (4.06 * fct) (4.645 * fct) = 4.06 * fct :=
    min_eq_left (by nlinarith [fct_pos])
  have h3 : min (4.06 * fct) (4.25 * fct) = 4.06 * fct :=
    min_eq_left (by nlinarith [fct_pos])
  simp [listMin, h1, h2, h3]

/-- C7 counterexample: for the oversized guest the integration upper
bound is negative, yet the integrator is invoked over the degenerate
interval `[0, ub]` (there is no guard turning the constant into 0
without integration). -/
theorem C7_counterexample :
    ∃ ub : ℝ, ub < 0 ∧
      (0, ub) ∈ (langmuir_consts sL7 T0c P0c hs_s1.a0_ast (.pfloat hs_s1.kappa)).calls := by
  have hcomps : sL7.comps = [gBig, wC] := by
    simp [sL7, mkLCState, hvdwpmBase]
  have hHs : sL7.Hs = hs_s1 := by
    simp [sL7, mkLCState, hvdwpmBase]
  have hTf : sL7.lattice_Tfactor = 1 := by
    simp [sL7, mkLCState]
  obtain ⟨_hw, hguest⟩ :=
    C7_langmuir_consts sL7 T0c P0c hs_s1.a0_ast (.pfloat hs_s1.kappa)
      (by norm_num [T0c])
  have hget : sL7.comps.get? 0 = some gBig := by rw [hcomps]; rfl
  obtain ⟨_h1, hmem, _h3, _h4, _h5⟩ :=
    hguest 0 gBig hget (by simp [gBig, gA])
  refine ⟨listMin (compute_integral_constants sL7 P0c hs_s1.a0_ast
      (PyVal.pfloat hs_s1.kappa).toR).1 - gBig.kih.a, ?_, hmem⟩
  rw [cic_s1 sL7 _ _ hHs hTf (by norm_num [hs_s1])]
  simp only [listMin_s1sm]
  norm_num [gBig, fct]

/-- Witness for C7: for the small guest the upper bound is nonnegative
and the theorem yields a nonnegative small-cage constant. -/
theorem C7_witness :
    ∃ v, (langmuir_consts sL7b T0c P0c hs_s1.a0_ast (.pfloat hs_s1.kappa)).Cs.get? 0 =
        some v ∧ 0 ≤ v := by
  have hcomps : sL7b.comps = [gSm, wC] := by
    simp [sL7b, mkLCState, hvdwpmBase]
  have hHs : sL7b.Hs = hs_s1 := by
    simp [sL7b, mkLCState, hvdwpmBase]
  have hTf : sL7b.lattice_Tfactor = 1 := by
    simp [sL7b, mkLCState]
  obtain ⟨_hw, hguest⟩ :=
    C7_langmuir_consts sL7b T0c P0c hs_s1.a0_ast (.pfloat hs_s1.kappa)
      (by norm_num [T0c])
  have hget : sL7b.comps.get? 0 = some gSm := by rw [hcomps]; rfl
  obtain ⟨h1, _hmem, _h3, h4, _h5⟩ :=
    hguest 0 gSm hget (by simp [gSm, gA])
  have hub : 0 ≤ listMin (compute_integral_constants sL7b P0c hs_s1.a0_ast
      (PyVal.pfloat hs_s1.kappa).toR).1 - gSm.kih.a := by
    rw [cic_s1 sL7b _ _ hHs hTf (by norm_num [hs_s1])]
    simp only [listMin_s1sm]
    norm_num [gSm, gA, fct]
  exact ⟨_, h1, h4 hub⟩

/-! Reduction lemmas for the concrete three-component run. -/

theorem quadI_same (f : ℝ → ℝ) : quadI f 0 0 = 0 := intervalIntegral.integral_same

theorem ubs_zero : 3.83 * fct - aStar = 0 := by norm_num [aStar]

theorem s3base_comps : s3base.comps = comps3 := rfl

theorem s3base_Hs : s3base.Hs = hs_s1 := rfl

theorem s3base_T : s3base.T = T0c := rfl

theorem s3base_P : s3base.P = P0c := rfl

theorem s3base_water : s3base.water_ind = 2 := rfl

theorem s3base_eq_fug : s3base.eq_fug = [0, 0, 0] := rfl

theorem s3base_fug : s3base.fug = .pint 0 := rfl

theorem s3base_kappa0 : s3base.kappa0 = .pfloat hs_s1.kappa := rfl

theorem s3base_Csmall : s3base.C_small = none := rfl

theorem s3base_Clarge : s3base.C_large = none := rfl

theorem s3base_sf : s3base.stdstate_fug = [0, 0, 0] := rfl

theorem s3base_kv : s3base.kappa_vec = [7, 9, 1] := by
  show (comps3.map fun c => (c.hvdwpmAt hs_s1.hydstruc).kappa) = [7, 9, 1]
  simp [comps3, gA, gB, wC, Component.hvdwpmAt, hs_s1]

theorem s3base_Dv : s3base.D_vec = [4, 4.5, 2.75] := by
  show (comps3.map (·.diam)) = [4, 4.5, 2.75]
  simp [comps3, gA, gB, wC]

theorem s3base_repsm : s3base.rep_sm_vec = [0.01, 0.015, 0] := by
  show (comps3.map fun c => (c.hvdwpmAt hs_s1.hydstruc).rep_small) = [0.01, 0.015, 0]
  simp [comps3, gA, gB, wC, Component.hvdwpmAt, hs_s1]

theorem s3base_replg : s3base.rep_lg_vec = [0.02, 0.025, 0] := by
  show (comps3.map fun c => (c.hvdwpmAt hs_s1.hydstruc).rep_large) = [0.02, 0.025, 0]
  simp [comps3, gA, gB, wC, Component.hvdwpmAt, hs_s1]

theorem s3base_Tf : s3base.lattice_Tfactor = 1 := by
  show Hydrate_size hs_s1 T0c P0c 1 (PyVal.pfloat hs_s1.kappa).toR true = 1
  exact Hydrate_size_T0_P0 hs_s1 1 _ true

/-- `langmuir_consts` at the standard conditions over the
three-component list: both guests have small-cage upper bound 0, so the
small-cage constants are all zero; the large-cage guest constants stay
symbolic. -/
theorem lc3 (s : EosState) (κ : PyVal) (lat : ℝ) (h1 : s.Hs = hs_s1)
    (h2 : s.lattice_Tfactor = 1) (h3 : s.comps = comps3) (hlat : lat = 11.99245) :
    ∃ cl1 cl2 cls, langmuir_consts s T0c P0c lat κ =
      ⟨[0, 0, 0], [cl1, cl2, 0], cls⟩ := by
  have hA : (lcGuest [3.83 * fct, 3.96 * fct]
      [4.47 * fct, 4.06 * fct, 4.645 * fct, 4.25 * fct] hs_s1.zsm hs_s1.zlg
      (CconstF T0c) T0c gA).1.1 = 0 := by
    simp only [lcGuest, listMin_s1sm, show gA.kih.a = aStar from rfl, ubs_zero,
      quadI_same, mul_zero]
  have hB : (lcGuest [3.83 * fct, 3.96 * fct]
      [4.47 * fct, 4.06 * fct, 4.645 * fct, 4.25 * fct] hs_s1.zsm hs_s1.zlg
      (CconstF T0c) T0c gB).1.1 = 0 := by
    simp only [lcGuest, listMin_s1sm, show gB.kih.a = aStar from rfl, ubs_zero,
      quadI_same, mul_zero]
  simp only [langmuir_consts, cic_s1 s κ.toR lat h1 h2 hlat, h3, h1]
  refine ⟨(lcGuest [3.83 * fct, 3.96 * fct]
      [4.47 * fct, 4.06 * fct, 4.645 * fct, 4.25 * fct] hs_s1.zsm hs_s1.zlg
      (CconstF T0c) T0c gA).1.2,
    (lcGuest [3.83 * fct, 3.96 * fct]
      [4.47 * fct, 4.06 * fct, 4.645 * fct, 4.25 * fct] hs_s1.zsm hs_s1.zlg
      (CconstF T0c) T0c gB).1.2,
    (lcGuest [3.83 * fct, 3.96 * fct]
      [4.47 * fct, 4.06 * fct, 4.645 * fct, 4.25 * fct] hs_s1.zsm hs_s1.zlg
      (CconstF T0c) T0c gA).2 ++
    ((lcGuest [3.83 * fct, 3.96 * fct]
      [4.47 * fct, 4.06 * fct, 4.645 * fct, 4.25 * fct] hs_s1.zsm hs_s1.zlg
      (CconstF T0c) T0c gB).2 ++ []), ?_⟩
  rw [show comps3 = [gA, gB, wC] from rfl,
    langmuir_constsAux_cons_guest _ _ _ _ _ _ _ _ (by simp [gA]),
    langmuir_constsAux_cons_guest _ _ _ _ _ _ _ _ (by simp [gB]),
    langmuir_constsAux_cons_water _ _ _ _ _ _ _ _ (by simp [wC]),
    hA, hB]
  simp [langmuir_constsAux]

theorem calc_zero_C3 (f1 f2 f3 : ℝ) :
    calc_langmuir comps3 [0, 0, 0] [f1, f2, f3] = [0, 0, 0] := by
  simp [calc_langmuir, calc_langmuirAux, comps3, gA, gB, wC]

theorem calc_zero_f3 (c1 c2 c3 : ℝ) :
    calc_langmuir comps3 [c1, c2, c3] [0, 0, 0] = [0, 0, 0] := by
  simp [calc_langmuir, calc_langmuirAux, comps3, gA, gB, wC]

theorem err3_nan (d1 d2 d3 e1 e2 e3 : ℝ) :
    errMeasure comps3 [0, 0, 0] [0, 0, 0] [d1, d2, d3] [e1, e2, e3] = .nan := by
  rw [show comps3 = [gA, gB, wC] from rfl]
  rw [errMeasure_cons_guest _ _ _ _ _ _ _ _ _ _ (by simp [gA])]
  have h : nvDivAbs |(0 : ℝ) - 0| 0 = .nan := by
    simp [nvDivAbs]
  rw [h, nvAdd_nan_left, nvAdd_nan_left]

theorem kappa_func3 (s : EosState) (Y : List ℝ) (h3 : s.comps = comps3) :
    ∃ y, kappa_func s Y = .npfloat y := by
  unfold kappa_func
  rw [h3]
  simp [comps3]

theorem kappa_func3_zero (s : EosState) (h3 : s.comps = comps3)
    (hkv : s.kappa_vec = [7, 9, 1]) :
    kappa_func s [0, 0, 0] = .npfloat 0 := by
  unfold kappa_func
  rw [h3, hkv]
  norm_num [comps3]

theorem flz3 (s : EosState) (h3 : s.comps = comps3) (h1 : s.Hs = hs_s1)
    (hY0 : s.Y_small_0 = [0, 0, 0]) (hY0l : s.Y_large_0 = [0, 0, 0])
    (hD : s.D_vec = [4, 4.5, 2.75]) (hrs : s.rep_sm_vec = [0.01, 0.015, 0])
    (hrl : s.rep_lg_vec = [0.02, 0.025, 0]) :
    filled_lattice_size s = 11.99245 := by
  unfold filled_lattice_size cage_distortion
  rw [h3, h1, hY0, hY0l, hD, hrs, hrl]
  norm_num [comps3, hs_s1]

theorem iter3 (s : EosState) (κ : PyVal) (lat : ℝ) (fug : List ℝ)
    (h1 : s.Hs = hs_s1) (h2 : s.lattice_Tfactor = 1) (h3 : s.comps = comps3)
    (hlat : lat = 11.99245) (f1 f2 f3 : ℝ) (hfug : fug = [f1, f2, f3]) :
    ∃ cl1 cl2, iterate_function s T0c P0c fug lat κ =
      ([0, 0, 0], [cl1, cl2, 0], [0, 0, 0],
        calc_langmuir comps3 [cl1, cl2, 0] [f1, f2, f3]) := by
  obtain ⟨cl1, cl2, cls, hlc⟩ := lc3 s κ lat h1 h2 h3 hlat
  refine ⟨cl1, cl2, ?_⟩
  simp only [iterate_function, hlc, h3, hfug]
  rw [calc_zero_C3]

theorem hvdwpmInit_ok (comps : List Component) (T P : ℝ) (hid : PyId)
    (fuel : Nat) (wi : Nat) (tag : String)
    (hw : waterIndex comps = .ok wi) (hr : hydStrucResolve hid = .ok tag) :
    hvdwpmInit comps T P hid fuel =
      match find_stdstate_volume
          (make_constant_mats (hvdwpmBase comps T P wi (structTable tag)) T P) fuel with
      | none => .ok none
      | some r => .ok (some r.1) := by
  unfold hvdwpmInit
  rw [hw, hr]

theorem construct3_eq : construct3 = .ok (some s3post) := by
  obtain ⟨cl1, cl2, hiter⟩ := iter3 s3base s3base.kappa0 hs_s1.a0_ast
    s3base.stdstate_fug s3base_Hs s3base_Tf s3base_comps (by norm_num [hs_s1])
    0 0 0 s3base_sf
  rw [calc_zero_f3] at hiter
  have hflz : filled_lattice_size
      { s3base with Y_small_0 := [0, 0, 0], Y_large_0 := [0, 0, 0] } = 11.99245 :=
    flz3 _ s3base_comps s3base_Hs rfl rfl s3base_Dv s3base_repsm s3base_replg
  have hkap : kappa_func
      { s3base with Y_small_0 := [0, 0, 0], Y_large_0 := [0, 0, 0] } [0, 0, 0] =
      .npfloat 0 :=
    kappa_func3_zero _ s3base_comps s3base_kv
  have herr : errMeasure comps3 [0, 0, 0] [0, 0, 0] [cl1, cl2, 0] [0, 0, 0] =
      .nan := err3_nan cl1 cl2 0 0 0 0
  have hstep : stdStep s3base [0, 0, 0] [0, 0, 0] s3base.kappa0 hs_s1.a0_ast =
      ({ s3base with Y_small_0 := [0, 0, 0], Y_large_0 := [0, 0, 0] },
       [0, 0, 0], [cl1, cl2, 0], .npfloat 0, 11.99245, .nan) := by
    simp only [stdStep, hiter]
    exact Prod.ext rfl (Prod.ext rfl (Prod.ext rfl
      (Prod.ext hkap (Prod.ext hflz herr))))
  have hloop : stdLoop 5 s3base [0, 0, 0] [0, 0, 0] s3base.kappa0 hs_s1.a0_ast =
      some ({ s3base with Y_small_0 := [0, 0, 0], Y_large_0 := [0, 0, 0] },
        .npfloat 0, 11.99245, .nan) := by
    rw [show (5 : Nat) = 4 + 1 from rfl]
    simp only [stdLoop, hstep]
    rw [if_neg (nvGT_nan_false TOLc)]
  have hfsv : find_stdstate_volume s3base 5 =
      some ({ { s3base with Y_small_0 := [0, 0, 0], Y_large_0 := [0, 0, 0] } with
              kappa_tmp := .npfloat 0, a_0 := 11.99245,
              v_H_0 := lattice_to_volume hs_s1 11.99245 }, .nan) := by
    unfold find_stdstate_volume
    rw [s3base_comps, show List.replicate comps3.length (0 : ℝ) = [0, 0, 0] from rfl,
      s3base_Hs, hloop]
    rfl
  have hres : construct3 =
      .ok (some ({ { s3base with Y_small_0 := [0, 0, 0], Y_large_0 := [0, 0, 0] } with
              kappa_tmp := .npfloat 0, a_0 := 11.99245,
              v_H_0 := lattice_to_volume hs_s1 11.99245 })) := by
    rw [show construct3 = hvdwpmInit comps3 T0c P0c (.s "s1") 5 from rfl,
      hvdwpmInit_ok comps3 T0c P0c (.s "s1") 5 2 "s1"
        (by simp [waterIndex, waterIdxAux, comps3, gA, gB, wC]) (by rfl)]
    rw [show make_constant_mats
        (hvdwpmBase comps3 T0c P0c 2 (structTable "s1")) T0c P0c = s3base from rfl]
    rw [hfsv]
  exact hres

theorem s3post_comps : s3post.comps = comps3 := rfl

theorem s3post_Tf : s3post.lattice_Tfactor = 1 := s3base_Tf

/-- C1: every `calc` call whose component list matches the instance and
whose mole-fraction vector has the right length raises NameError — the
body of `calc` references the undefined name `compobjs` (the parameter
is `comps`) on both remaining paths — instead of returning the fugacity
vector promised by its own docstring. -/
theorem C1_calc_raises_nameerror :
    construct3 = .ok (some s3post) ∧
    calcFug s3post comps3 T0c P0c x0 ef0 = .error .nameError := by
  refine ⟨construct3_eq, ?_⟩
  unfold calcFug
  rw [if_neg (by simp [x0, comps3]), if_neg (by simp [s3post_comps]), ite_self]

/-- C4 counterexample: on the successfully constructed instance, a
`calc` call with a different component list returns `None` (after only
printing a warning) — it does not fail with a typed error. -/
theorem C4_counterexample :
    construct3 = .ok (some s3post) ∧
    calcFug s3post [gA] T0c P0c [0.5] ef0 = .ok none := by
  refine ⟨construct3_eq, ?_⟩
  unfold calcFug
  rw [if_neg (by simp), if_pos (by rw [s3post_comps]; simp [comps3])]

/-- C4 (amended): a `calc` call whose component list differs from the
instance's list (and whose mole-fraction vector has a matching length)
prints a warning and returns `None`; no typed error is raised. -/
theorem C4_mismatched_comps_returns_none (s : EosState) (comps : List Component)
    (T P : ℝ) (x ef : List ℝ) (hlen : x.length = comps.length)
    (hne : comps ≠ s.comps) :
    calcFug s comps T P x ef = .ok none := by
  unfold calcFug
  rw [if_neg (by simp [hlen]), if_pos hne]

/-- Witness for the amended C4 at a concrete mismatched call. -/
theorem C4_witness :
    construct3 = .ok (some s3post) ∧
    calcFug s3post [gB] T0c P0c [1] ef0 = .ok none :=
  ⟨construct3_eq, C4_mismatched_comps_returns_none s3post [gB] T0c P0c [1] ef0
    (by simp) (by rw [s3post_comps]; simp [comps3])⟩

theorem find_props_fuel_zero (s : EosState) (T P : ℝ) (ef : List ℝ) :
    find_hydrate_properties s T P ef 0 = .ok none ∨
    ∃ e, find_hydrate_properties s T P ef 0 = .error e := by
  unfold find_hydrate_properties
  cases hk : s.kappa_tmp.copy with
  | error e => exact .inr ⟨e, rfl⟩
  | ok v => exact .inl rfl

/-- C2 (amended): every fugacity call consults the operating-state
solver: the memoization comparison vector `self.eq_fug` is never
updated and `find_hydrate_properties` is invoked unconditionally, so
with zero solver fuel no call — including a repeat of an earlier call —
can return a fugacity vector. -/
theorem C2_no_memo_fast_path (s : EosState) (T P : ℝ) (x ef : List ℝ)
    (out : List ℝ × EosState) : fugacity s T P x ef 0 ≠ .ok (some out) := by
  intro hcontr
  by_cases hm : ef = s.eq_fug
  · cases hc : s.fug.copy with
    | error e =>
      simp only [fugacity, if_pos hm, hc] at hcontr
      exact absurd hcontr (by simp)
    | ok v =>
      rcases find_props_fuel_zero s T P ef with h | ⟨e, h⟩ <;>
          simp only [fugacity, if_pos hm, hc, h] at hcontr <;>
        exact absurd hcontr (by simp)
  · rcases find_props_fuel_zero s T P ef with h | ⟨e, h⟩ <;>
        simp only [fugacity, if_neg hm, h] at hcontr <;>
      exact absurd hcontr (by simp)

theorem ef0_ne_cache : ef0 ≠ s3post.eq_fug := by
  rw [show s3post.eq_fug = [(0 : ℝ), 0, 0] from rfl,
    show ef0 = [(5 : ℝ), 6, -1] from rfl]
  intro h
  injection h with h1 _
  norm_num at h1

theorem fugacity_of_find (s : EosState) (T P : ℝ) (x ef : List ℝ) (fuel : Nat)
    (r : EosState × NVal) (hne : ef ≠ s.eq_fug)
    (h : find_hydrate_properties s T P ef fuel = .ok (some r)) :
    fugacity s T P x ef fuel = .ok (some (
      (0 :: ef.drop 1).set 0 (Real.exp (r.1.gwbeta_RT
        + activity_func r.1 T P r.1.v_H_0 + delta_mu_func r.1 - r.1.gw0_RT)),
      { r.1 with fug := .nparr ((0 :: ef.drop 1).set 0 (Real.exp (r.1.gwbeta_RT
        + activity_func r.1 T P r.1.v_H_0 + delta_mu_func r.1 - r.1.gw0_RT))) })) := by
  simp only [fugacity, if_neg hne, h]

theorem fugrun3_spec :
    ∃ E sfin s1,
      find_hydrate_properties s3post T0c P0c ef0 5 = .ok (some (sfin, .nan)) ∧
      fugacity s3post T0c P0c x0 ef0 5 = .ok (some ([Real.exp E, 6, -1], s1)) ∧
      sfin.eq_fug = [0, 0, 0] ∧ s1.eq_fug = [0, 0, 0] ∧
      (∃ y, s1.kappa_tmp = .npfloat y) := by
  obtain ⟨cl1, cl2, hiter⟩ := iter3 s3post (.npfloat 0) s3post.a_0 ef0 rfl
    s3post_Tf rfl rfl 5 6 (-1) rfl
  obtain ⟨ky, hky⟩ := kappa_func3
    { s3post with
      Y_small := [0, 0, 0]
      Y_large := calc_langmuir comps3 [cl1, cl2, 0] [5, 6, -1] }
    (calc_langmuir comps3 [cl1, cl2, 0] [5, 6, -1]) rfl
  have herr : errMeasure
      ({ s3post with
         Y_small := [0, 0, 0]
         Y_large := calc_langmuir comps3 [cl1, cl2, 0] [5, 6, -1] }).comps
      [0, 0, 0] [0, 0, 0] [cl1, cl2, 0] [0, 0, 0] = .nan :=
    err3_nan cl1 cl2 0 0 0 0
  have hstep : findStep s3post T0c P0c ef0 [0, 0, 0] [0, 0, 0] (.npfloat 0)
      s3post.a_0 =
      ({ s3post with
         Y_small := [0, 0, 0]
         Y_large := calc_langmuir comps3 [cl1, cl2, 0] [5, 6, -1] },
       [0, 0, 0], [cl1, cl2, 0], .npfloat ky, .nan) := by
    simp only [findStep, hiter]
    exact Prod.ext rfl (Prod.ext rfl (Prod.ext rfl (Prod.ext hky herr)))
  have hloop : findLoop 5 s3post T0c P0c ef0 [0, 0, 0] [0, 0, 0] (.npfloat 0)
      s3post.a_0 =
      some ({ s3post with
         Y_small := [0, 0, 0]
         Y_large := calc_langmuir comps3 [cl1, cl2, 0] [5, 6, -1] },
       [0, 0, 0], [cl1, cl2, 0], .npfloat ky, .nan) := by
    rw [show (5 : Nat) = 4 + 1 from rfl]
    simp only [findLoop, hstep]
    rw [if_neg (nvGT_nan_false TOLc)]
  have hfind : find_hydrate_properties s3post T0c P0c ef0 5 =
      .ok (some
        ({ { s3post with
             Y_small := [0, 0, 0]
             Y_large := calc_langmuir comps3 [cl1, cl2, 0] [5, 6, -1] } with
           C_small := some [0, 0, 0]
           C_large := some [cl1, cl2, 0]
           kappa_tmp := .npfloat ky
           v_H := Hydrate_size
             ({ s3post with
                Y_small := [0, 0, 0]
                Y_large := calc_langmuir comps3 [cl1, cl2, 0] [5, 6, -1] }).Hs
             T0c P0c
             ({ s3post with
                Y_small := [0, 0, 0]
                Y_large := calc_langmuir comps3 [cl1, cl2, 0] [5, 6, -1] }).v_H_0
             (PyVal.npfloat ky).toR false }, .nan)) := by
    unfold find_hydrate_properties
    rw [show s3post.C_small = none from rfl, show s3post.C_large = none from rfl,
      show s3post.kappa_tmp = PyVal.npfloat 0 from rfl,
      show List.replicate s3post.comps.length (0 : ℝ) = [0, 0, 0] from rfl]
    simp only [PyVal.copy, hloop]
  have hfug := fugacity_of_find s3post T0c P0c x0 ef0 5 _ ef0_ne_cache hfind
  rw [show ((0 : ℝ) :: ef0.drop 1) = [(0 : ℝ), 6, -1] from rfl] at hfug
  simp only [List.set_cons_zero] at hfug
  exact ⟨_, _, _, hfind, hfug, rfl, rfl, ⟨ky, rfl⟩⟩

theorem ef0_ne_zero : ef0 ≠ [0, 0, 0] := by
  rw [show ef0 = [(5 : ℝ), 6, -1] from rfl]
  intro h
  injection h with h1 _
  norm_num at h1

theorem fug_zero_fuel_none (s : EosState) (T P : ℝ) (x ef : List ℝ)
    (hne : ef ≠ s.eq_fug) (y : ℝ) (hk : s.kappa_tmp = .npfloat y) :
    fugacity s T P x ef 0 = .ok none := by
  unfold fugacity find_hydrate_properties
  rw [if_neg hne, hk]
  simp only [PyVal.copy, findLoop]

/-- C2 counterexample: after a first successful fugacity call, an
identical second call (same T, P and a bit-identical eq_fug) still goes
through the operating-state solver: with no solver budget it yields no
result at all instead of the cached vector, and the comparison vector
`eq_fug` still holds the construction-time zeros rather than the
previously supplied vector. -/
theorem C2_counterexample :
    construct3 = .ok (some s3post) ∧
    ∃ E s1, fugacity s3post T0c P0c x0 ef0 5 =
        .ok (some ([Real.exp E, 6, -1], s1)) ∧
      s1.eq_fug = [0, 0, 0] ∧ ef0 ≠ [0, 0, 0] ∧
      fugacity s1 T0c P0c x0 ef0 0 = .ok none := by
  refine ⟨construct3_eq, ?_⟩
  obtain ⟨E, sfin, s1, hfind, hfug, hsf, hs1, ⟨y, hky⟩⟩ := fugrun3_spec
  refine ⟨E, s1, hfug, hs1, ef0_ne_zero, ?_⟩
  exact fug_zero_fuel_none s1 T0c P0c x0 ef0 (by rw [hs1]; exact ef0_ne_zero) y hky

/-- C3 counterexample: on the constructed instance water sits at index
2, and a successful fugacity computation returns the vector
`[exp(·), 6, -1]`: its entry at the water index is the supplied
`eq_fug[2] = -1`, which cannot equal any exponential, so the water
formula was written to position 0, not to the water index. -/
theorem C3_counterexample :
    construct3 = .ok (some s3post) ∧ s3post.water_ind = 2 ∧
    ∃ E s1, fugacity s3post T0c P0c x0 ef0 5 =
        .ok (some ([Real.exp E, 6, -1], s1)) ∧
      [Real.exp E, 6, -1].get? 2 = some (-1) ∧
      ∀ y : ℝ, Real.exp y ≠ -1 := by
  refine ⟨construct3_eq, rfl, ?_⟩
  obtain ⟨E, sfin, s1, hfind, hfug, -, -, -⟩ := fugrun3_spec
  refine ⟨E, s1, hfug, rfl, ?_⟩
  intro y h
  have := Real.exp_pos y
  rw [h] at this
  norm_num at this

/-- C3 (amended): when `eq_fug` differs from the (never-updated) cached
comparison vector, a successful `fugacity` call returns a vector whose
entries at positions 1 and above copy `eq_fug` positionally, and whose
position 0 receives `exp(mu_H/RT - gw0_RT)` computed from the solved
state: positions, not the name-identified water index, determine the
layout. -/
theorem C3_fugacity_positional (s : EosState) (T P : ℝ) (x ef : List ℝ)
    (fuel : Nat) (fugv : List ℝ) (s1 : EosState)
    (hne : ef ≠ s.eq_fug)
    (h : fugacity s T P x ef fuel = .ok (some (fugv, s1))) :
    (∀ i, 1 ≤ i → fugv.get? i = ef.get? i) ∧
    (∃ r, find_hydrate_properties s T P ef fuel = .ok (some r) ∧
      fugv = (0 :: ef.drop 1).set 0 (Real.exp (r.1.gwbeta_RT
        + activity_func r.1 T P r.1.v_H_0 + delta_mu_func r.1 - r.1.gw0_RT))) := by
  rcases hf : find_hydrate_properties s T P ef fuel with e | o
  · simp only [fugacity, if_neg hne, hf] at h
    exact absurd h (by simp)
  · rcases o with - | r
    · simp only [fugacity, if_neg hne, hf] at h
      exact absurd h (by simp)
    · have heq := fugacity_of_find s T P x ef fuel r hne hf
      rw [heq] at h
      simp only [Except.ok.injEq, Option.some.injEq, Prod.mk.injEq] at h
      obtain ⟨hv, -⟩ := h
      refine ⟨?_, ⟨r, rfl, hv.symm⟩⟩
      intro i hi
      obtain ⟨j, rfl⟩ : ∃ j, i = j + 1 := ⟨i - 1, by omega⟩
      rw [← hv]
      simp [List.get?_eq_getElem?, List.getElem?_drop, Nat.add_comm]

/-- Witness for the amended C3: in the concrete run, entry 1 of the
returned vector equals entry 1 of the supplied eq_fug. -/
theorem C3_witness :
    ∃ E s1, fugacity s3post T0c P0c x0 ef0 5 =
        .ok (some ([Real.exp E, 6, -1], s1)) ∧
      [Real.exp E, 6, -1].get? 1 = ef0.get? 1 := by
  obtain ⟨E, sfin, s1, hfind, hfug, -, -, -⟩ := fugrun3_spec
  exact ⟨E, s1, hfug,
    (C3_fugacity_positional s3post T0c P0c x0 ef0 5 _ s1 ef0_ne_cache hfug).1 1
      (by norm_num)⟩

/-- C6 (amended): neither fixed-point loop carries an iteration bound
or any failure report; whenever a loop returns to its caller it does so
exactly because the convergence measure failed the `error > TOL` test —
which also happens for a NaN measure (never below the tolerance) — and
otherwise the `while` loop just keeps iterating without bound. -/
theorem C6_loops_have_no_iteration_bound :
    (∀ n s Cs Cl κ lat out, stdLoop n s Cs Cl κ lat = some out →
        ¬ nvGT out.2.2.2 TOLc) ∧
    (∀ n s T P ef Cs Cl κ lat out, findLoop n s T P ef Cs Cl κ lat = some out →
        ¬ nvGT out.2.2.2.2 TOLc) := by
  constructor
  · intro n
    induction n with
    | zero =>
      intro s Cs Cl κ lat out h
      simp [stdLoop] at h
    | succ n ih =>
      intro s Cs Cl κ lat out h
      simp only [stdLoop] at h
      by_cases hgt : nvGT (stdStep s Cs Cl κ lat).2.2.2.2.2 TOLc
      · rw [if_pos hgt] at h
        exact ih _ _ _ _ _ _ h
      · rw [if_neg hgt] at h
        injection h with h1
        rw [← h1]
        exact hgt
  · intro n
    induction n with
    | zero =>
      intro s T P ef Cs Cl κ lat out h
      simp [findLoop] at h
    | succ n ih =>
      intro s T P ef Cs Cl κ lat out h
      simp only [findLoop] at h
      by_cases hgt : nvGT (findStep s T P ef Cs Cl κ lat).2.2.2.2 TOLc
      · rw [if_pos hgt] at h
        exact ih _ _ _ _ _ _ _ _ _ h
      · rw [if_neg hgt] at h
        injection h with h1
        rw [← h1]
        exact hgt

/-- C6 counterexample: on the constructed instance the operating-state
loop exits normally on its very first iteration with a NaN convergence
measure — the measure never fell below 1e-3 (it is not even a finite
number), yet no ConvergenceFailure of any kind is reported: the result
is an ordinary converged state. -/
theorem C6_counterexample :
    construct3 = .ok (some s3post) ∧
    ∃ sfin, find_hydrate_properties s3post T0c P0c ef0 5 =
        .ok (some (sfin, NVal.nan)) ∧
      (∀ x : ℝ, NVal.nan ≠ NVal.fin x) ∧ ¬ nvGT NVal.nan TOLc := by
  refine ⟨construct3_eq, ?_⟩
  obtain ⟨E, sfin, s1, hfind, -, -, -, -⟩ := fugrun3_spec
  exact ⟨sfin, hfind, fun x h => NVal.noConfusion h, nvGT_nan_false TOLc⟩

/-- Witness for the amended C6: the loop-exit characterisation applied
to a concrete one-iteration loop over an empty component list, whose
exit measure is the finite 0. -/
theorem C6_witness : ¬ nvGT (NVal.fin 0) TOLc := by
  have hloop : findLoop 1 (mkLCState []) T0c P0c [] [] [] (.npfloat 0) 1 =
      some ({ mkLCState [] with Y_small := [], Y_large := [] }, [], [],
        ({ mkLCState [] with Y_small := [], Y_large := [] }).kappa0, .fin 0) := by
    have hstep : findStep (mkLCState []) T0c P0c [] [] [] (.npfloat 0) 1 =
        ({ mkLCState [] with Y_small := [], Y_large := [] }, [], [],
         ({ mkLCState [] with Y_small := [], Y_large := [] }).kappa0, .fin 0) := by
      simp only [findStep, iterate_function, langmuir_consts,
        show (mkLCState []).comps = ([] : List Component) from rfl,
        langmuir_constsAux, calc_langmuir, calc_langmuirAux, errMeasure,
        kappa_func]
      exact Prod.ext rfl (Prod.ext rfl (Prod.ext rfl (Prod.ext
        (by rw [if_neg (by simp)]) rfl)))
    rw [show (1 : Nat) = 0 + 1 from rfl]
    simp only [findLoop, hstep]
    rw [if_neg (by simp [nvGT, TOLc]; norm_num)]
  exact C6_loops_have_no_iteration_bound.2 1 (mkLCState []) T0c P0c [] [] []
    (.npfloat 0) 1 _ hloop

/-! Invariants of the reference-state loop for at most two components. -/

theorem stdStep_state (s : EosState) (Cs Cl : List ℝ) (κ : PyVal) (lat : ℝ) :
    (stdStep s Cs Cl κ lat).1.comps = s.comps ∧
    (stdStep s Cs Cl κ lat).1.kappa0 = s.kappa0 ∧
    (stdStep s Cs Cl κ lat).1.Hs = s.Hs ∧
    (stdStep s Cs Cl κ lat).1.fug = s.fug := by
  refine ⟨?_, ?_, ?_, ?_⟩ <;> simp [stdStep]

theorem stdStep_kappa_le2 (s : EosState) (Cs Cl : List ℝ) (κ : PyVal) (lat : ℝ)
    (h2 : ¬ 2 < s.comps.length) :
    (stdStep s Cs Cl κ lat).2.2.2.1 = s.kappa0 := by
  simp [stdStep, kappa_func, h2]

theorem stdLoop_le2 (n : Nat) : ∀ (s : EosState) (Cs Cl : List ℝ) (κ : PyVal)
    (lat : ℝ) (out : EosState × PyVal × ℝ × NVal), ¬ 2 < s.comps.length →
    stdLoop n s Cs Cl κ lat = some out →
    out.1.comps = s.comps ∧ out.1.kappa0 = s.kappa0 ∧ out.1.Hs = s.Hs ∧
    out.1.fug = s.fug ∧ out.2.1 = s.kappa0 := by
  induction n with
  | zero =>
    intro s Cs Cl κ lat out h2 h
    simp [stdLoop] at h
  | succ n ih =>
    intro s Cs Cl κ lat out h2 h
    obtain ⟨hc, hk, hH, hf⟩ := stdStep_state s Cs Cl κ lat
    simp only [stdLoop] at h
    by_cases hgt : nvGT (stdStep s Cs Cl κ lat).2.2.2.2.2 TOLc
    · rw [if_pos hgt] at h
      obtain ⟨ic, ik, iH, ifg, ikp⟩ := ih _ _ _ _ _ _ (by rw [hc]; exact h2) h
      exact ⟨ic.trans hc, ik.trans hk, iH.trans hH, ifg.trans hf, ikp.trans hk⟩
    · rw [if_neg hgt] at h
      injection h with h1
      rw [← h1]
      exact ⟨hc, hk, hH, hf, stdStep_kappa_le2 s Cs Cl κ lat h2⟩

theorem fsv_le2 (s : EosState) (fuel : Nat) (out : EosState × NVal)
    (h2 : ¬ 2 < s.comps.length) (h : find_stdstate_volume s fuel = some out) :
    out.1.comps = s.comps ∧ out.1.kappa0 = s.kappa0 ∧ out.1.Hs = s.Hs ∧
    out.1.fug = s.fug ∧ out.1.kappa_tmp = s.kappa0 := by
  unfold find_stdstate_volume at h
  cases hl : stdLoop fuel s (List.replicate s.comps.length 0)
      (List.replicate s.comps.length 0) s.kappa0 s.Hs.a0_ast with
  | none => rw [hl] at h; simp at h
  | some r =>
    rw [hl] at h
    obtain ⟨ic, ik, iH, ifg, ikp⟩ := stdLoop_le2 fuel s _ _ _ _ r h2 hl
    simp only [Option.map_some] at h
    injection h with h1
    rw [← h1]
    exact ⟨ic, ik, iH, ifg, ikp⟩

/-- C9: for every successfully constructed two-component instance, the
compressibility update `kappa_func` returns the instance's `kappa0`
unchanged — the structure table's nominal compressibility, stored as a
plain Python float — so `kappa_tmp` finishes construction as that plain
float; every subsequent operating-state solve then raises
AttributeError at `self.kappa_tmp.copy()`, and with it every fugacity
computation. -/
theorem C9_two_comp_attribute_error (comps : List Component) (T P : ℝ)
    (hid : PyId) (fuel : Nat) (s : EosState) (hn : comps.length = 2)
    (hc : hvdwpmInit comps T P hid fuel = .ok (some s)) :
    (∀ Y, kappa_func s Y = s.kappa0) ∧
    s.kappa0 = .pfloat s.Hs.kappa ∧
    s.kappa_tmp = .pfloat s.Hs.kappa ∧
    (∀ Tq Pq ef n, find_hydrate_properties s Tq Pq ef n = .error .attributeError) ∧
    (∀ Tq Pq x ef n, fugacity s Tq Pq x ef n = .error .attributeError) := by
  unfold hvdwpmInit at hc
  cases hw : waterIndex comps with
  | error e => simp only [hw] at hc; exact absurd hc (by simp)
  | ok wi =>
    simp only [hw] at hc
    cases hr : hydStrucResolve hid with
    | error e => simp only [hr] at hc; exact absurd hc (by simp)
    | ok tag =>
      simp only [hr] at hc
      cases hf : find_stdstate_volume
          (make_constant_mats (hvdwpmBase comps T P wi (structTable tag)) T P)
          fuel with
      | none => simp only [hf] at hc; exact absurd hc (by simp)
      | some r =>
        simp only [hf, Except.ok.injEq, Option.some.injEq] at hc
        have h2 : ¬ 2 < (make_constant_mats
            (hvdwpmBase comps T P wi (structTable tag)) T P).comps.length := by
          rw [show (make_constant_mats
            (hvdwpmBase comps T P wi (structTable tag)) T P).comps = comps from rfl,
            hn]
          omega
        obtain ⟨ic, ik, iH, ifg, ikp⟩ := fsv_le2 _ fuel r h2 hf
        rw [← hc]
        have hcomps : r.1.comps = comps := ic
        have hk0 : r.1.kappa0 = .pfloat (structTable tag).kappa := ik
        have hHs : r.1.Hs = structTable tag := iH
        have hfg : r.1.fug = .pint 0 := ifg
        have hkt : r.1.kappa_tmp = .pfloat (structTable tag).kappa := ikp
        have hkfun : ∀ Y, kappa_func r.1 Y = r.1.kappa0 := by
          intro Y
          unfold kappa_func
          rw [if_neg (by rw [hcomps, hn]; omega)]
        have hfindprops : ∀ Tq Pq ef n,
            find_hydrate_properties r.1 Tq Pq ef n = .error .attributeError := by
          intro Tq Pq ef n
          unfold find_hydrate_properties
          rw [hkt]
          simp [PyVal.copy]
        refine ⟨hkfun, by rw [hk0, hHs], by rw [hkt, hHs], hfindprops, ?_⟩
        intro Tq Pq x ef n
        by_cases hm : ef = r.1.eq_fug
        · simp only [fugacity, if_pos hm, hfg, PyVal.copy]
        · simp only [fugacity, if_neg hm, hfindprops Tq Pq ef n]

/-! Reduction lemmas for the concrete two-component run. -/

theorem kappa_func_eq_kappa0 (s : EosState) (Y : List ℝ)
    (h2 : ¬ 2 < s.comps.length) : kappa_func s Y = s.kappa0 := by
  unfold kappa_func
  rw [if_neg h2]

theorem s2base_Tf : s2base.lattice_Tfactor = 1 := by
  show Hydrate_size hs_s1 T0c P0c 1 (PyVal.pfloat hs_s1.kappa).toR true = 1
  exact Hydrate_size_T0_P0 hs_s1 1 _ true

theorem lc2 (s : EosState) (κ : PyVal) (lat : ℝ) (h1 : s.Hs = hs_s1)
    (h2 : s.lattice_Tfactor = 1) (h3 : s.comps = comps2)
    (hlat : lat = 11.99245) :
    ∃ cl cls, langmuir_consts s T0c P0c lat κ = ⟨[0, 0], [cl, 0], cls⟩ := by
  have hA : (lcGuest [3.83 * fct, 3.96 * fct]
      [4.47 * fct, 4.06 * fct, 4.645 * fct, 4.25 * fct] hs_s1.zsm hs_s1.zlg
      (CconstF T0c) T0c gA).1.1 = 0 := by
    simp only [lcGuest, listMin_s1sm, show gA.kih.a = aStar from rfl, ubs_zero,
      quadI_same, mul_zero]
  simp only [langmuir_consts, cic_s1 s κ.toR lat h1 h2 hlat, h3, h1]
  refine ⟨(lcGuest [3.83 * fct, 3.96 * fct]
      [4.47 * fct, 4.06 * fct, 4.645 * fct, 4.25 * fct] hs_s1.zsm hs_s1.zlg
      (CconstF T0c) T0c gA).1.2,
    (lcGuest [3.83 * fct, 3.96 * fct]
      [4.47 * fct, 4.06 * fct, 4.645 * fct, 4.25 * fct] hs_s1.zsm hs_s1.zlg
      (CconstF T0c) T0c gA).2 ++ [], ?_⟩
  rw [show comps2 = [gA, wC] from rfl,
    langmuir_constsAux_cons_guest _ _ _ _ _ _ _ _ (by simp [gA]),
    langmuir_constsAux_cons_water _ _ _ _ _ _ _ _ (by simp [wC]), hA]
  simp [langmuir_constsAux]

theorem calc_zero_C2 (f1 f2 : ℝ) :
    calc_langmuir comps2 [0, 0] [f1, f2] = [0, 0] := by
  simp [calc_langmuir, calc_langmuirAux, comps2, gA, wC]

theorem calc_zero_f2 (c1 c2 : ℝ) :
    calc_langmuir comps2 [c1, c2] [0, 0] = [0, 0] := by
  simp [calc_langmuir, calc_langmuirAux, comps2, gA, wC]

theorem err2_nan (d1 d2 e1 e2 : ℝ) :
    errMeasure comps2 [0, 0] [0, 0] [d1, d2] [e1, e2] = .nan := by
  rw [show comps2 = [gA, wC] from rfl]
  rw [errMeasure_cons_guest _ _ _ _ _ _ _ _ _ _ (by simp [gA])]
  have h : nvDivAbs |(0 : ℝ) - 0| 0 = .nan := by simp [nvDivAbs]
  rw [h, nvAdd_nan_left, nvAdd_nan_left]

theorem iter2 (s : EosState) (κ : PyVal) (lat : ℝ) (fug : List ℝ)
    (h1 : s.Hs = hs_s1) (h2 : s.lattice_Tfactor = 1) (h3 : s.comps = comps2)
    (hlat : lat = 11.99245) (f1 f2 : ℝ) (hfug : fug = [f1, f2]) :
    ∃ cl, iterate_function s T0c P0c fug lat κ =
      ([0, 0], [cl, 0], [0, 0], calc_langmuir comps2 [cl, 0] [f1, f2]) := by
  obtain ⟨cl, cls, hlc⟩ := lc2 s κ lat h1 h2 h3 hlat
  refine ⟨cl, ?_⟩
  simp only [iterate_function, hlc, h3, hfug]
  rw [calc_zero_C2]

theorem construct2_eq : construct2 = .ok (some s2post) := by
  obtain ⟨cl, hiter⟩ := iter2 s2base s2base.kappa0 hs_s1.a0_ast
    s2base.stdstate_fug rfl s2base_Tf rfl (by norm_num [hs_s1]) 0 0 rfl
  rw [calc_zero_f2] at hiter
  have hkap : kappa_func
      { s2base with Y_small_0 := [0, 0], Y_large_0 := [0, 0] } [0, 0] =
      .pfloat hs_s1.kappa :=
    (kappa_func_eq_kappa0 _ [0, 0]
      (show ¬ 2 < comps2.length by simp [comps2])).trans rfl
  have herr : errMeasure
      ({ s2base with Y_small_0 := [0, 0], Y_large_0 := [0, 0] }).comps
      [0, 0] [0, 0] [cl, 0] [0, 0] = .nan := err2_nan cl 0 0 0
  have hstep : stdStep s2base [0, 0] [0, 0] s2base.kappa0 hs_s1.a0_ast =
      ({ s2base with Y_small_0 := [0, 0], Y_large_0 := [0, 0] },
       [0, 0], [cl, 0], .pfloat hs_s1.kappa,
       filled_lattice_size
         { s2base with Y_small_0 := [0, 0], Y_large_0 := [0, 0] }, .nan) := by
    simp only [stdStep, hiter]
    exact Prod.ext rfl (Prod.ext rfl (Prod.ext rfl
      (Prod.ext hkap (Prod.ext rfl herr))))
  have hloop : stdLoop 5 s2base [0, 0] [0, 0] s2base.kappa0 hs_s1.a0_ast =
      some ({ s2base with Y_small_0 := [0, 0], Y_large_0 := [0, 0] },
        .pfloat hs_s1.kappa,
        filled_lattice_size
          { s2base with Y_small_0 := [0, 0], Y_large_0 := [0, 0] }, .nan) := by
    rw [show (5 : Nat) = 4 + 1 from rfl]
    simp only [stdLoop, hstep]
    rw [if_neg (nvGT_nan_false TOLc)]
  have hfsv : find_stdstate_volume s2base 5 = some (s2post, .nan) := by
    unfold find_stdstate_volume
    rw [show List.replicate s2base.comps.length (0 : ℝ) = [0, 0] from rfl,
      show s2base.Hs.a0_ast = hs_s1.a0_ast from rfl, hloop]
    rfl
  rw [show construct2 = hvdwpmInit comps2 T0c P0c (.s "s1") 5 from rfl,
    hvdwpmInit_ok comps2 T0c P0c (.s "s1") 5 1 "s1"
      (by simp [waterIndex, waterIdxAux, comps2, gA, wC]) (by rfl)]
  rw [show make_constant_mats
      (hvdwpmBase comps2 T0c P0c 1 (structTable "s1")) T0c P0c = s2base from rfl]
  rw [hfsv]

/-- Witness for C9: the concrete two-component construction succeeds
and its first fugacity computation raises AttributeError. -/
theorem C9_witness :
    construct2 = .ok (some s2post) ∧
    fugacity s2post T0c P0c [0, 0] [1, 2] 3 = .error .attributeError :=
  ⟨construct2_eq,
    (C9_two_comp_attribute_error comps2 T0c P0c (.s "s1") 5 s2post rfl
      construct2_eq).2.2.2.2 T0c P0c [0, 0] [1, 2] 3⟩
